import Mathlib

/-!
Shallow embedding of `src/packages/relay-runtime/store/RelayResponseNormalizer.js`.

The normalizer walks a pre-compiled selection tree against a GraphQL-style
response tree, flattening it into an identity-keyed mutable record source and
collecting handle/match/incremental payload lists.  The JavaScript source is
translated as follows:

* JS values flowing through the normalizer are modelled by `JSValue`
  (JSON-like; `undefined` is modelled as an absent key / `Option.none`,
  an explicit `null` as `JSValue.null`).
* `invariant(cond, msg)` failures (thrown exceptions) are modelled by
  `Except.error msg`.  On a throw the JS store keeps its partial mutations,
  but no caller of this module observes the store after a throw (the spec
  declares the snapshot unrecoverable), so `Except` discards it.
* `warning(cond, msg)` (dev-only, purely observational) is modelled by
  appending `msg` to a `warnings` list when `dev = true` and the condition
  is false; it never affects control flow.
* In JS the walker mutates record objects that are aliased inside the record
  source; every record the walker touches is present in the source under its
  key (the root is checked, children are inserted before traversal), so
  in-place object mutation is modelled by updating the source at that key.
-/

/-- JSON-like runtime values of the response tree and of stored scalars. -/
inductive JSValue where
  | null
  | bool (b : Bool)
  | num (n : Int)
  | str (s : String)
  | obj (fields : List (String × JSValue))
  | arr (items : List JSValue)
deriving Repr

/-- JavaScript truthiness of a value (`undefined`/`null`/`false`/`0`/empty
string are falsy, objects and arrays are truthy). -/
def JSValue.truthy : JSValue → Bool
  | .null => false
  | .bool b => b
  | .num n => n != 0
  | .str s => s != ""
  | .obj _ => true
  | .arr _ => true

/-- JavaScript strict equality on the primitive values the normalizer
compares (`===`); composite values compare by reference in JS, which a pure
embedding cannot observe, and the normalizer only ever compares primitives. -/
def JSValue.strictEq : JSValue → JSValue → Bool
  | .null, .null => true
  | .bool a, .bool b => a == b
  | .num a, .num b => a == b
  | .str a, .str b => a == b
  | _, _ => false

/-- Whether a value is a JS boolean (`typeof v === 'boolean'`). -/
def JSValue.isBool : JSValue → Bool
  | .bool _ => true
  | _ => false

/-- Whether a value is an explicit `null`. -/
def JSValue.isNull : JSValue → Bool
  | .null => true
  | _ => false

/-- JS `typeof v === 'object' && v`: a non-null object or array. -/
def JSValue.isObjectLike : JSValue → Bool
  | .obj _ => true
  | .arr _ => true
  | _ => false

/-- Property read `v[key]` on an object; `none` models `undefined`
(absent key, or a read on a non-object such as an array). -/
def JSValue.getField : JSValue → String → Option JSValue
  | .obj fs, key => fs.lookup key
  | _, _ => none

/-- An opaque string naming one record in the store. -/
abbrev DataID := String

/-- One stored field of a record: a scalar value (`setValue`), a single
linked identity (`setLinkedRecordID`, stored as `{__ref}` in JS), or an
ordered list of nullable linked identities (`setLinkedRecordIDs`,
stored as `{__refs}`). -/
inductive StoredValue where
  | scalar (v : JSValue)
  | ref (id : DataID)
  | refs (ids : List (Option DataID))
deriving Repr

/-- Associative-list read used for records, record sources and variable maps. -/
def assocGet {β : Type} : List (String × β) → String → Option β
  | [], _ => none
  | (k', v) :: rest, k => if k' = k then some v else assocGet rest k

/-- Associative-list write: replaces the first binding of the key in place,
or appends a new binding at the end (JS property assignment / `Map.set`). -/
def assocSet {β : Type} : List (String × β) → String → β → List (String × β)
  | [], k, v => [(k, v)]
  | (k', v') :: rest, k, v =>
    if k' = k then (k, v) :: rest else (k', v') :: assocSet rest k v

/-- A record: a typed bag of fields keyed by storage key.  `Modelled from the
spec:` the record shape is owned by the external record field accessor
(`RelayModernRecord`, not under `src/`); per spec section 3 every record
carries its identity and a runtime type tag.  The type tag is kept as a raw
`JSValue` because the source only null-checks the payload's typename. -/
structure Record where
  dataID : DataID
  typename : JSValue
  fields : List (String × StoredValue)
deriving Repr

/-- The mutable record store: a mapping from identity to record. -/
abbrev RecordSource := List (DataID × Record)

namespace RelayModernRecord

/-- Modelled from the spec: external accessor `RelayModernRecord.create`
(record constructor `create(identity, typeName)`, spec section 6). -/
def create (dataID : DataID) (typeName : JSValue) : Record :=
  { dataID := dataID, typename := typeName, fields := [] }

/-- Modelled from the spec: external accessor `RelayModernRecord.getDataID`. -/
def getDataID (r : Record) : DataID := r.dataID

/-- Modelled from the spec: external accessor `RelayModernRecord.getType`. -/
def getType (r : Record) : JSValue := r.typename

/-- Modelled from the spec: external accessor `RelayModernRecord.setValue`. -/
def setValue (r : Record) (storageKey : String) (v : JSValue) : Record :=
  { r with fields := assocSet r.fields storageKey (.scalar v) }

/-- Modelled from the spec: external accessor
`RelayModernRecord.setLinkedRecordID`. -/
def setLinkedRecordID (r : Record) (storageKey : String) (id : DataID) : Record :=
  { r with fields := assocSet r.fields storageKey (.ref id) }

/-- Modelled from the spec: external accessor
`RelayModernRecord.setLinkedRecordIDs`. -/
def setLinkedRecordIDs (r : Record) (storageKey : String)
    (ids : List (Option DataID)) : Record :=
  { r with fields := assocSet r.fields storageKey (.refs ids) }

/-- Modelled from the spec: external accessor
`RelayModernRecord.getLinkedRecordID`; yields the stored single linked
identity, or `none` when the field is unset or holds `null`. -/
def getLinkedRecordID (r : Record) (storageKey : String) : Option DataID :=
  match assocGet r.fields storageKey with
  | some (.ref id) => some id
  | _ => none

/-- Modelled from the spec: external accessor
`RelayModernRecord.getLinkedRecordIDs`; yields the stored identity list, or
`none` when the field is unset or holds `null`. -/
def getLinkedRecordIDs (r : Record) (storageKey : String) :
    Option (List (Option DataID)) :=
  match assocGet r.fields storageKey with
  | some (.refs ids) => some ids
  | _ => none

end RelayModernRecord

/-- Modelled from the spec: the Client-Identity Generator
(`generateRelayClientID(ownerIdentity, storageKey)`, spec section 4.2), a
pure deterministic synthesis of an identity from its inputs. -/
def generateRelayClientID (id : DataID) (storageKey : String) : DataID :=
  id ++ ":" ++ storageKey

/-- Modelled from the spec: the Client-Identity Generator with the list-index
argument supplied (`generateRelayClientID(ownerIdentity, storageKey, index)`). -/
def generateRelayClientIDIndexed (id : DataID) (storageKey : String)
    (index : Nat) : DataID :=
  id ++ ":" ++ storageKey ++ ":" ++ toString index

/-- Modelled from the spec: `TYPENAME_KEY` from the external `RelayStoreUtils`
— the reserved typename marker key of response objects. -/
def TYPENAME_KEY : String := "__typename"

/-- Modelled from the spec: `MATCH_FRAGMENT_KEY` from the external
`RelayStoreUtils` — the reserved match-operation-reference marker key. -/
def MATCH_FRAGMENT_KEY : String := "__match_fragment"

/-- A node of the pre-compiled selection tree (`NormalizationNode` selection
kinds).  Storage keys, handle keys and resolved handle arguments are carried
on the nodes: in the source they are produced from the node and the call's
variables by the external Storage-Key Codec (`getStorageKey`,
`getHandleStorageKey`, `getArgumentValues` from `RelayStoreUtils`), which the
spec places out of scope as an already-correct deterministic primitive.
`matchTypes` lists the keys of a match field's per-type descriptor table
`matchesByType` (the normalizer only ever tests membership in that table).
`fragmentNode` stands for the `FRAGMENT`/`FRAGMENT_SPREAD` kinds, which are a
fatal contract violation when they reach the walker. -/
inductive Selection where
  | scalarField (name : String) (aliasName : Option String) (storageKey : String)
  | linkedField (name : String) (aliasName : Option String) (storageKey : String)
      (plural : Bool) (concreteType : Option String) (selections : List Selection)
  | matchField (name : String) (aliasName : Option String) (storageKey : String)
      (matchTypes : List String)
  | condition (condVar : String) (passingValue : Bool) (selections : List Selection)
  | inlineFragment (typeName : String) (selections : List Selection)
  | scalarHandle (handle : String) (fieldKey : String) (handleKey : String)
      (args : List (String × JSValue))
  | linkedHandle (handle : String) (fieldKey : String) (handleKey : String)
      (args : List (String × JSValue))
  | deferNode (ifVar : Option String) (label : String) (selections : List Selection)
  | streamNode (ifVar : Option String) (label : String) (selections : List Selection)
  | fragmentNode (kindName : String)
deriving Repr

/-- A handle-field work item (`HandleFieldPayload`). -/
structure HandleFieldPayload where
  args : List (String × JSValue)
  dataID : DataID
  fieldKey : String
  handle : String
  handleKey : String
deriving Repr

/-- The selector carried by an incremental continuation: owner identity, the
defer/stream subtree, and the call's variables. -/
structure IncrementalSelector where
  dataID : DataID
  node : Selection
  vars : List (String × JSValue)
deriving Repr

/-- An incremental continuation descriptor (`IncrementalDataPayload`),
of kind `"defer"` or `"stream"`. -/
structure IncrementalDataPayload where
  kind : String
  label : String
  path : List String
  selector : IncrementalSelector
deriving Repr

/-- A polymorphic match-fragment work item (`MatchFieldPayload`). -/
structure MatchFieldPayload where
  operationReference : JSValue
  dataID : DataID
  data : JSValue
  typeName : JSValue
  vars : List (String × JSValue)
deriving Repr

/-- Per-call immutable context: the variable bindings, the
`handleStrippedNulls` option, and whether this is a dev build (`__DEV__`,
which gates the soft diagnostics and the type-consistency check). -/
structure NormalizerContext where
  vars : List (String × JSValue)
  handleStrippedNulls : Bool
  dev : Bool
deriving Repr

/-- The mutable state of one normalization call: the record source and the
three collector lists, the traversal path, and the dev-only diagnostics
emitted so far (observational only, never affecting control flow). -/
structure NormalizerState where
  recordSource : RecordSource
  handleFieldPayloads : List HandleFieldPayload
  incrementalPayloads : List IncrementalDataPayload
  matchFieldPayloads : List MatchFieldPayload
  path : List String
  warnings : List String
deriving Repr

/-- JS `a || b` for an optional field read on the left: yields `a`'s value
when present and truthy, else `b`. -/
def jsOrOpt (a : Option JSValue) (b : JSValue) : JSValue :=
  match a with
  | some v => if v.truthy then v else b
  | none => b

/-- The alias-or-name response key of a field (`selection.alias ||
selection.name`, with JS truthiness: an empty alias falls back to the name). -/
def strOr (aliasName : Option String) (name : String) : String :=
  match aliasName with
  | some s => if s = "" then name else s
  | none => name

/-- Target-identity resolution shared by singular links, plural link items
and match fields: `fieldValue.id || storedID || generatedID` under JS
truthiness, where `storedID` is the identity already stored at the storage
key (per-index for plural items) and `generatedID` the synthesized client
identity. -/
def resolveNextID (idField : Option JSValue) (storedID : Option DataID)
    (generatedID : DataID) : JSValue :=
  jsOrOpt idField (jsOrOpt (storedID.map JSValue.str) (JSValue.str generatedID))

/-- The previously stored identity for a plural item
(`prevIDs && prevIDs[nextIndex]`): `none` when there is no stored list, the
index is out of range, or the stored entry is `null`. -/
def prevAt (prevIDs : Option (List (Option DataID))) (index : Nat) : Option DataID :=
  match prevIDs with
  | some l =>
    match l.get? index with
    | some (some id) => some id
    | _ => none
  | none => none

/-- Record read through the source (in JS the walker holds a reference to a
record object aliased inside the source; every record it touches is present
under its key, so the default branch is never exercised from the entry
points). -/
def getRec (st : NormalizerState) (id : DataID) : Record :=
  (assocGet st.recordSource id).getD (RelayModernRecord.create id JSValue.null)

/-- Record mutation through the source (models JS in-place mutation of the
record object aliased at that key). -/
def updateRec (st : NormalizerState) (id : DataID) (f : Record → Record) :
    NormalizerState :=
  { st with recordSource := assocSet st.recordSource id (f (getRec st id)) }

/-- Dev-gated soft diagnostic (`if (__DEV__) warning(cond, msg)`): appended
when the build is dev and the condition is false; never thrown. -/
def pushWarning (ctx : NormalizerContext) (st : NormalizerState) (cond : Bool)
    (msg : String) : NormalizerState :=
  if ctx.dev && !cond then { st with warnings := st.warnings ++ [msg] } else st

/-- `_getVariableValue`: a variable absent from the bindings is a fatal
contract violation (`invariant`). -/
def getVariableValue (ctx : NormalizerContext) (name : String) :
    Except String JSValue :=
  match assocGet ctx.vars name with
  | some v => .ok v
  | none => .error "RelayResponseNormalizer(): Undefined variable."

/-- `_getRecordType`: reads the payload's typename marker; `invariant` that
it is neither absent nor null (`typeName != null`). -/
def getRecordType (data : JSValue) : Except String JSValue :=
  match data.getField TYPENAME_KEY with
  | some v =>
    if v.isNull then .error "RelayResponseNormalizer(): Expected a typename for record."
    else .ok v
  | none => .error "RelayResponseNormalizer(): Expected a typename for record."

/-- The observed type name of a link/match target used when creating a record
and by `_validateRecordType`: a linked field's static concrete type when
truthy (`field.concreteType || this._getRecordType(payload)`), else the
payload's typename. -/
def fieldTypeName (isLinkedField : Bool) (concreteType : Option String)
    (payload : JSValue) : Except String JSValue :=
  if isLinkedField then
    match concreteType with
    | some ct => if ct = "" then getRecordType payload else .ok (.str ct)
    | none => getRecordType payload
  else getRecordType payload

/-- `_validateRecordType`: cross-checks an existing record's stored type
against the newly observed type; emits only a soft diagnostic on mismatch
(it is invoked by the walker only on dev builds). -/
def validateRecordType (ctx : NormalizerContext) (record : Record)
    (isLinkedField : Bool) (concreteType : Option String) (payload : JSValue)
    (st : NormalizerState) : Except String NormalizerState := do
  let typeName ← fieldTypeName isLinkedField concreteType payload
  .ok (pushWarning ctx st
    (JSValue.strictEq (RelayModernRecord.getType record) typeName)
    "RelayResponseNormalizer: record assigned conflicting types.")

/-- `_normalizeMatchField`: resolves the runtime type against the selection's
per-type match table; an unrecognized type writes `null` and stops; a
recognized one resolves/creates the target record exactly like a singular
link (with no static concrete type) and, when the payload carries an
operation reference, appends a match payload.  `pal` says whether the parent
node is a linked field with no concrete type (it only gates a soft
diagnostic). -/
def normalizeMatchField (ctx : NormalizerContext) (pal : Bool)
    (name : String) (aliasName : Option String) (storageKey : String)
    (matchTypes : List String) (dataID : DataID) (data : JSValue)
    (st : NormalizerState) : Except String NormalizerState :=
  if !data.isObjectLike then
    .error "writeField(): Expected data for field to be an object."
  else
    let responseKey := strOr aliasName name
    match data.getField responseKey with
    | none =>
      if !ctx.handleStrippedNulls then .ok st
      else
        let st := pushWarning ctx st pal
          "RelayResponseNormalizer(): Payload did not contain a value for field."
        .ok (updateRec st dataID
          (fun r => RelayModernRecord.setValue r storageKey .null))
    | some fieldValue =>
      if fieldValue.isNull then
        .ok (updateRec st dataID
          (fun r => RelayModernRecord.setValue r storageKey .null))
      else if !fieldValue.isObjectLike then
        .error "RelayResponseNormalizer: Expected data for field to be an object."
      else do
        let typeName ← getRecordType fieldValue
        let recognized :=
          match typeName with
          | .str tn => decide (tn ∈ matchTypes)
          | _ => false
        if !recognized then
          .ok (updateRec st dataID
            (fun r => RelayModernRecord.setValue r storageKey .null))
        else
          let owner := getRec st dataID
          match resolveNextID (fieldValue.getField "id")
              (RelayModernRecord.getLinkedRecordID owner storageKey)
              (generateRelayClientID (RelayModernRecord.getDataID owner) storageKey) with
          | .str nextID => do
            let st := updateRec st dataID
              (fun r => RelayModernRecord.setLinkedRecordID r storageKey nextID)
            let st ← match assocGet st.recordSource nextID with
              | none =>
                let created := RelayModernRecord.create nextID typeName
                Except.ok { st with recordSource := assocSet st.recordSource nextID created }
              | some nextRecord =>
                if ctx.dev then validateRecordType ctx nextRecord false none fieldValue st
                else .ok st
            match fieldValue.getField MATCH_FRAGMENT_KEY with
            | some opRef =>
              if opRef.isNull then .ok st
              else
                .ok { st with matchFieldPayloads := st.matchFieldPayloads ++
                  [{ operationReference := opRef, dataID := nextID,
                     data := fieldValue, typeName := typeName, vars := ctx.vars }] }
            | none => .ok st
          | _ => .error "RelayResponseNormalizer: Expected id on field to be a string."

mutual

/-- `_traverseSelections` restricted to the selection list of a node; `pal`
records whether the parent node is a linked field with no static concrete
type (used only by the missing-field soft diagnostic). -/
def traverseSelections (ctx : NormalizerContext) (pal : Bool)
    (sels : List Selection) (dataID : DataID) (data : JSValue)
    (st : NormalizerState) : Except String NormalizerState :=
  match sels with
  | [] => .ok st
  | sel :: rest => do
    let st ← normalizeSelection ctx pal sel dataID data st
    traverseSelections ctx pal rest dataID data st
termination_by (sizeOf sels, 0, 0)

/-- The per-selection dispatch of `_traverseSelections`. -/
def normalizeSelection (ctx : NormalizerContext) (pal : Bool) (sel : Selection)
    (dataID : DataID) (data : JSValue) (st : NormalizerState) :
    Except String NormalizerState :=
  match sel with
  | .scalarField name aliasName storageKey =>
    normalizeField ctx pal (.scalarField name aliasName storageKey) dataID data st
  | .linkedField name aliasName storageKey plural concreteType subsels =>
    normalizeField ctx pal (.linkedField name aliasName storageKey plural concreteType subsels)
      dataID data st
  | .condition condVar passingValue subsels => do
    let conditionValue ← getVariableValue ctx condVar
    if conditionValue.strictEq (.bool passingValue) then
      traverseSelections ctx false subsels dataID data st
    else .ok st
  | .inlineFragment typeName subsels =>
    if (RelayModernRecord.getType (getRec st dataID)).strictEq (.str typeName) then
      traverseSelections ctx false subsels dataID data st
    else .ok st
  | .scalarHandle handle fieldKey handleKey args =>
    .ok { st with handleFieldPayloads := st.handleFieldPayloads ++
      [{ args := args, dataID := RelayModernRecord.getDataID (getRec st dataID),
         fieldKey := fieldKey, handle := handle, handleKey := handleKey }] }
  | .linkedHandle handle fieldKey handleKey args =>
    .ok { st with handleFieldPayloads := st.handleFieldPayloads ++
      [{ args := args, dataID := RelayModernRecord.getDataID (getRec st dataID),
         fieldKey := fieldKey, handle := handle, handleKey := handleKey }] }
  | .matchField name aliasName storageKey matchTypes =>
    normalizeMatchField ctx pal name aliasName storageKey matchTypes dataID data st
  | .deferNode ifVar label subsels => do
    let isDeferred ← match ifVar with
      | none => Except.ok (JSValue.bool true)
      | some v => getVariableValue ctx v
    let st := pushWarning ctx st isDeferred.isBool
      "RelayResponseNormalizer: Expected value for @defer if argument to be a boolean."
    if isDeferred.strictEq (.bool false) then
      traverseSelections ctx false subsels dataID data st
    else
      .ok { st with incrementalPayloads := st.incrementalPayloads ++
        [{ kind := "defer", label := label, path := st.path,
           selector := { dataID := RelayModernRecord.getDataID (getRec st dataID),
                         node := Selection.deferNode ifVar label subsels,
                         vars := ctx.vars } }] }
  | .streamNode ifVar label subsels => do
    let st ← traverseSelections ctx false subsels dataID data st
    let isStreamed ← match ifVar with
      | none => Except.ok (JSValue.bool true)
      | some v => getVariableValue ctx v
    let st := pushWarning ctx st isStreamed.isBool
      "RelayResponseNormalizer: Expected value for @stream if argument to be a boolean."
    if isStreamed.strictEq (.bool true) then
      .ok { st with incrementalPayloads := st.incrementalPayloads ++
        [{ kind := "stream", label := label, path := st.path,
           selector := { dataID := RelayModernRecord.getDataID (getRec st dataID),
                         node := Selection.streamNode ifVar label subsels,
                         vars := ctx.vars } }] }
    else .ok st
  | .fragmentNode _ => .error "RelayResponseNormalizer(): Unexpected ast kind."
termination_by (sizeOf sel, 4, 0)

/-- `_normalizeField` for scalar and linked fields; any other kind reaching
it is a fatal contract violation. -/
def normalizeField (ctx : NormalizerContext) (pal : Bool) (sel : Selection)
    (dataID : DataID) (data : JSValue) (st : NormalizerState) :
    Except String NormalizerState :=
  if !data.isObjectLike then
    .error "writeField(): Expected data for field to be an object."
  else
    match sel with
    | .scalarField name aliasName storageKey =>
      let responseKey := strOr aliasName name
      match data.getField responseKey with
      | none =>
        if !ctx.handleStrippedNulls then .ok st
        else
          let st := pushWarning ctx st pal
            "RelayResponseNormalizer(): Payload did not contain a value for field."
          .ok (updateRec st dataID
            (fun r => RelayModernRecord.setValue r storageKey .null))
      | some fieldValue =>
        if fieldValue.isNull then
          .ok (updateRec st dataID
            (fun r => RelayModernRecord.setValue r storageKey .null))
        else
          .ok (updateRec st dataID
            (fun r => RelayModernRecord.setValue r storageKey fieldValue))
    | .linkedField name aliasName storageKey plural concreteType subsels =>
      let responseKey := strOr aliasName name
      match data.getField responseKey with
      | none =>
        if !ctx.handleStrippedNulls then .ok st
        else
          let st := pushWarning ctx st pal
            "RelayResponseNormalizer(): Payload did not contain a value for field."
          .ok (updateRec st dataID
            (fun r => RelayModernRecord.setValue r storageKey .null))
      | some fieldValue =>
        if fieldValue.isNull then
          .ok (updateRec st dataID
            (fun r => RelayModernRecord.setValue r storageKey .null))
        else do
          let st := { st with path := st.path ++ [responseKey] }
          let st ←
            if plural then
              normalizePluralLink ctx concreteType subsels dataID storageKey fieldValue st
            else
              normalizeLink ctx concreteType subsels dataID storageKey fieldValue st
          .ok { st with path := st.path.dropLast }
    | _ => .error "RelayResponseNormalizer(): Unexpected ast kind during normalization."
termination_by (sizeOf sel, 3, 0)

/-- `_normalizeLink`: resolves the target identity, writes it on the owner,
creates the target record when absent (validating its type on dev builds
when present), then recurses into the field's selections against the nested
response object. -/
def normalizeLink (ctx : NormalizerContext) (concreteType : Option String)
    (subsels : List Selection) (dataID : DataID) (storageKey : String)
    (fieldValue : JSValue) (st : NormalizerState) : Except String NormalizerState :=
  if !fieldValue.isObjectLike then
    .error "RelayResponseNormalizer: Expected data for field to be an object."
  else
    let owner := getRec st dataID
    match resolveNextID (fieldValue.getField "id")
        (RelayModernRecord.getLinkedRecordID owner storageKey)
        (generateRelayClientID (RelayModernRecord.getDataID owner) storageKey) with
    | .str nextID => do
      let st := updateRec st dataID
        (fun r => RelayModernRecord.setLinkedRecordID r storageKey nextID)
      let st ← match assocGet st.recordSource nextID with
        | none => do
          let typeName ← fieldTypeName true concreteType fieldValue
          let created := RelayModernRecord.create nextID typeName
          Except.ok { st with recordSource := assocSet st.recordSource nextID created }
        | some nextRecord =>
          if ctx.dev then validateRecordType ctx nextRecord true concreteType fieldValue st
          else .ok st
      traverseSelections ctx concreteType.isNone subsels nextID fieldValue st
    | _ => .error "RelayResponseNormalizer: Expected id on field to be a string."
termination_by (sizeOf subsels, 1, 0)

/-- `_normalizePluralLink`: captures the previously stored identity list,
processes the items, then writes the full ordered identity list back over
the owner's field. -/
def normalizePluralLink (ctx : NormalizerContext) (concreteType : Option String)
    (subsels : List Selection) (dataID : DataID) (storageKey : String)
    (fieldValue : JSValue) (st : NormalizerState) : Except String NormalizerState :=
  match fieldValue with
  | .arr items => do
    let prevIDs := RelayModernRecord.getLinkedRecordIDs (getRec st dataID) storageKey
    let res ← pluralItems ctx concreteType subsels dataID storageKey prevIDs items 0 st
    .ok (updateRec res.1 dataID
      (fun r => RelayModernRecord.setLinkedRecordIDs r storageKey res.2))
  | _ => .error "RelayResponseNormalizer: Expected data for field to be an array of objects."
termination_by (sizeOf subsels, 2, 0)

/-- The item loop of `_normalizePluralLink`: `null` items keep their position
without recursion; other items resolve per-index identities and recurse. -/
def pluralItems (ctx : NormalizerContext) (concreteType : Option String)
    (subsels : List Selection) (dataID : DataID) (storageKey : String)
    (prevIDs : Option (List (Option DataID))) (items : List JSValue)
    (nextIndex : Nat) (st : NormalizerState) :
    Except String (NormalizerState × List (Option DataID)) :=
  match items with
  | [] => .ok (st, [])
  | item :: rest =>
    if item.isNull then do
      let res ← pluralItems ctx concreteType subsels dataID storageKey prevIDs
        rest (nextIndex + 1) st
      .ok (res.1, none :: res.2)
    else
      let st := { st with path := st.path ++ [toString nextIndex] }
      if !item.isObjectLike then
        .error "RelayResponseNormalizer: Expected elements for field to be objects."
      else
        let owner := getRec st dataID
        match resolveNextID (item.getField "id") (prevAt prevIDs nextIndex)
            (generateRelayClientIDIndexed (RelayModernRecord.getDataID owner)
              storageKey nextIndex) with
        | .str nextID => do
          let st ← match assocGet st.recordSource nextID with
            | none => do
              let typeName ← fieldTypeName true concreteType item
              let created := RelayModernRecord.create nextID typeName
              Except.ok { st with recordSource := assocSet st.recordSource nextID created }
            | some nextRecord =>
              if ctx.dev then validateRecordType ctx nextRecord true concreteType item st
              else .ok st
          let st ← traverseSelections ctx concreteType.isNone subsels nextID item st
          let st := { st with path := st.path.dropLast }
          let res ← pluralItems ctx concreteType subsels dataID storageKey prevIDs
            rest (nextIndex + 1) st
          .ok (res.1, some nextID :: res.2)
        | _ => .error "RelayResponseNormalizer: Expected id of elements of field to be strings."
termination_by (sizeOf subsels, 1, items.length)

end

/-- `normalizeResponse`: the root record's absence from the store is a fatal
contract violation checked before any selection is traversed; the root node
is never a linked field, so the walk starts with the parent flag false. -/
def normalizeResponse (ctx : NormalizerContext) (selections : List Selection)
    (dataID : DataID) (data : JSValue) (st : NormalizerState) :
    Except String NormalizerState :=
  match assocGet st.recordSource dataID with
  | some _ => traverseSelections ctx false selections dataID data st
  | none => .error "RelayResponseNormalizer(): Expected root record to exist."

/-- A normalization selector: root identity, the root node's selections, and
the variable bindings. -/
structure NormalizationSelector where
  dataID : DataID
  selections : List Selection
  vars : List (String × JSValue)
deriving Repr

/-- The `NormalizationOptions` record. -/
structure NormalizationOptions where
  handleStrippedNulls : Bool
deriving Repr

/-- Fresh per-call collector state over a given record source. -/
def initState (recordSource : RecordSource) : NormalizerState :=
  { recordSource := recordSource, handleFieldPayloads := [],
    incrementalPayloads := [], matchFieldPayloads := [], path := [],
    warnings := [] }

namespace RelayResponseNormalizer

/-- Entry point `normalize(recordSource, selector, response, options)`.  The
`RelayProfiler.instrument` wrapper around it is semantically transparent and
omitted; `dev` selects the dev build (`__DEV__`).  The returned state carries
the mutated record source and the three payload lists. -/
def normalize (recordSource : RecordSource) (selector : NormalizationSelector)
    (response : JSValue) (options : NormalizationOptions) (dev : Bool) :
    Except String NormalizerState :=
  normalizeResponse
    { vars := selector.vars, handleStrippedNulls := options.handleStrippedNulls,
      dev := dev }
    selector.selections selector.dataID response (initState recordSource)

end RelayResponseNormalizer

theorem assocGet_assocSet_self {β : Type} (l : List (String × β)) (k : String)
    (v : β) : assocGet (assocSet l k v) k = some v := by
  induction l with
  | nil => simp [assocSet, assocGet]
  | cons p rest ih =>
    obtain ⟨k', v'⟩ := p
    by_cases h : k' = k
    · simp [assocSet, h, assocGet]
    · simp [assocSet, h, assocGet, ih]

theorem assocGet_assocSet_ne {β : Type} (l : List (String × β)) (k k' : String)
    (v : β) (h : k ≠ k') : assocGet (assocSet l k v) k' = assocGet l k' := by
  induction l with
  | nil =>
    have h' : ¬ k = k' := h
    simp [assocSet, assocGet, h']
  | cons p rest ih =>
    obtain ⟨k1, v1⟩ := p
    by_cases h1 : k1 = k
    · subst h1; simp [assocSet, assocGet, h]
    · simp [assocSet, h1, assocGet, ih]

theorem getRec_updateRec_self (st : NormalizerState) (id : DataID)
    (f : Record → Record) : getRec (updateRec st id f) id = f (getRec st id) := by
  simp [getRec, updateRec, assocGet_assocSet_self]

/-- Reduction of a monadic bind on a successful `Except` computation. -/
theorem exceptOk_bind {e a b : Type} (x : a) (f : a → Except e b) :
    (Except.ok x >>= f) = f x := rfl

/-- Reduction of a monadic bind on a failed `Except` computation. -/
theorem exceptError_bind {e a b : Type} (msg : e) (f : a → Except e b) :
    ((Except.error msg : Except e a) >>= f) = Except.error msg := rfl

/-- Shared concrete fixture: a root record of type `Query`. -/
def exRoot : Record := RelayModernRecord.create "root" (.str "Query")

/-- Shared concrete fixture: a store holding only the root record. -/
def exSource : RecordSource := [("root", exRoot)]

/-- Shared concrete fixture: an empty-variable production-build context. -/
def exCtx : NormalizerContext :=
  { vars := [], handleStrippedNulls := false, dev := false }

/-- C8: a call to normalize fails with the fatal root-record error, before
any selection is traversed, exactly when the record named by the selector's
identity is absent from the store; when that record exists the call reduces
to the traversal itself, so this check does not fail. -/
theorem C8_root_record_precondition (ctx : NormalizerContext)
    (selections : List Selection) (dataID : DataID) (data : JSValue)
    (st : NormalizerState) :
    (assocGet st.recordSource dataID = none →
      normalizeResponse ctx selections dataID data st =
        .error "RelayResponseNormalizer(): Expected root record to exist.") ∧
    (∀ r, assocGet st.recordSource dataID = some r →
      normalizeResponse ctx selections dataID data st =
        traverseSelections ctx false selections dataID data st) := by
  constructor
  · intro h
    simp [normalizeResponse, h]
  · intro r h
    simp [normalizeResponse, h]

/-- Witness for C8 at concrete inputs: a missing root is fatal, a present
root proceeds to the traversal. -/
theorem C8_root_record_precondition_witness :
    normalizeResponse exCtx [] "missing" (.obj []) (initState exSource) =
      .error "RelayResponseNormalizer(): Expected root record to exist." ∧
    normalizeResponse exCtx [] "root" (.obj []) (initState exSource) =
      traverseSelections exCtx false [] "root" (.obj []) (initState exSource) := by
  constructor
  · exact (C8_root_record_precondition exCtx [] "missing" (.obj [])
      (initState exSource)).1 rfl
  · exact (C8_root_record_precondition exCtx [] "root" (.obj [])
      (initState exSource)).2 exRoot rfl

/-- C2: for a scalar field selection over an object-like response: a present
non-null value is stored verbatim at the storage key, an explicit null
stores null, an absent key with `handleStrippedNulls = false` leaves the
state untouched, and an absent key with `handleStrippedNulls = true` stores
null (with at most a dev-only diagnostic). -/
theorem C2_scalar_field_semantics (ctx : NormalizerContext) (pal : Bool)
    (name : String) (aliasName : Option String) (storageKey : String)
    (dataID : DataID) (data : JSValue) (st : NormalizerState)
    (hobj : data.isObjectLike = true) :
    (∀ v, data.getField (strOr aliasName name) = some v → v.isNull = false →
      normalizeField ctx pal (.scalarField name aliasName storageKey) dataID data st =
        .ok (updateRec st dataID (fun r => RelayModernRecord.setValue r storageKey v)) ∧
      assocGet (getRec (updateRec st dataID
        (fun r => RelayModernRecord.setValue r storageKey v)) dataID).fields storageKey =
        some (.scalar v)) ∧
    (data.getField (strOr aliasName name) = some .null →
      normalizeField ctx pal (.scalarField name aliasName storageKey) dataID data st =
        .ok (updateRec st dataID (fun r => RelayModernRecord.setValue r storageKey .null))) ∧
    (data.getField (strOr aliasName name) = none → ctx.handleStrippedNulls = false →
      normalizeField ctx pal (.scalarField name aliasName storageKey) dataID data st =
        .ok st) ∧
    (data.getField (strOr aliasName name) = none → ctx.handleStrippedNulls = true →
      normalizeField ctx pal (.scalarField name aliasName storageKey) dataID data st =
        .ok (updateRec (pushWarning ctx st pal
            "RelayResponseNormalizer(): Payload did not contain a value for field.")
          dataID (fun r => RelayModernRecord.setValue r storageKey .null))) := by
  refine ⟨?_, ?_, ?_, ?_⟩
  · intro v hv hnn
    constructor
    · simp [normalizeField, hobj, hv, hnn]
    · simp [getRec_updateRec_self, RelayModernRecord.setValue, assocGet_assocSet_self]
  · intro hv
    simp [normalizeField, hobj, hv, JSValue.isNull]
  · intro hv hs
    simp [normalizeField, hobj, hv, hs]
  · intro hv hs
    simp [normalizeField, hobj, hv, hs]

/-- Witness for C2 at concrete inputs: all four branches exercised. -/
theorem C2_scalar_field_semantics_witness :
    (normalizeField exCtx false (.scalarField "name" none "name") "root"
        (.obj [("name", .str "Ada")]) (initState exSource) =
      .ok (updateRec (initState exSource) "root"
        (fun r => RelayModernRecord.setValue r "name" (.str "Ada")))) ∧
    (normalizeField exCtx false (.scalarField "name" none "name") "root"
        (.obj [("name", .null)]) (initState exSource) =
      .ok (updateRec (initState exSource) "root"
        (fun r => RelayModernRecord.setValue r "name" .null))) ∧
    (normalizeField exCtx false (.scalarField "name" none "name") "root"
        (.obj []) (initState exSource) = .ok (initState exSource)) ∧
    (normalizeField { exCtx with handleStrippedNulls := true } false
        (.scalarField "name" none "name") "root" (.obj []) (initState exSource) =
      .ok (updateRec (pushWarning { exCtx with handleStrippedNulls := true }
          (initState exSource) false
          "RelayResponseNormalizer(): Payload did not contain a value for field.")
        "root" (fun r => RelayModernRecord.setValue r "name" .null))) := by
  refine ⟨?_, ?_, ?_, ?_⟩
  · exact ((C2_scalar_field_semantics exCtx false "name" none "name" "root"
      (.obj [("name", .str "Ada")]) (initState exSource) rfl).1 (.str "Ada")
      (by simp [JSValue.getField, strOr]) rfl).1
  · exact (C2_scalar_field_semantics exCtx false "name" none "name" "root"
      (.obj [("name", .null)]) (initState exSource) rfl).2.1
      (by simp [JSValue.getField, strOr])
  · exact (C2_scalar_field_semantics exCtx false "name" none "name" "root"
      (.obj []) (initState exSource) rfl).2.2.1 rfl rfl
  · exact (C2_scalar_field_semantics { exCtx with handleStrippedNulls := true }
      false "name" none "name" "root" (.obj []) (initState exSource) rfl).2.2.2 rfl rfl

/-- C6: a match field whose non-null object payload carries a runtime
typename with no entry in the selection's match table writes null at the
field's storage key on the owner and stops: no error, no match payload
appended, and no record other than the owner touched (in particular no
target record created). -/
theorem C6_match_unrecognized_type (ctx : NormalizerContext) (pal : Bool)
    (name : String) (aliasName : Option String) (storageKey : String)
    (matchTypes : List String) (dataID : DataID) (data fieldValue : JSValue)
    (st : NormalizerState) (hobj : data.isObjectLike = true)
    (hfv : data.getField (strOr aliasName name) = some fieldValue)
    (hfvobj : fieldValue.isObjectLike = true)
    (tn : String) (htn : fieldValue.getField TYPENAME_KEY = some (.str tn))
    (hmiss : tn ∉ matchTypes) :
    normalizeMatchField ctx pal name aliasName storageKey matchTypes dataID data st =
      .ok (updateRec st dataID
        (fun r => RelayModernRecord.setValue r storageKey .null)) ∧
    (updateRec st dataID
      (fun r => RelayModernRecord.setValue r storageKey .null)).matchFieldPayloads =
      st.matchFieldPayloads ∧
    (∀ id, id ≠ dataID →
      assocGet (updateRec st dataID
        (fun r => RelayModernRecord.setValue r storageKey .null)).recordSource id =
      assocGet st.recordSource id) := by
  have hnn : fieldValue.isNull = false := by
    cases fieldValue <;> simp_all [JSValue.isObjectLike, JSValue.isNull]
  refine ⟨?_, ?_, ?_⟩
  · cases fieldValue with
    | obj fs =>
      have hd : decide (tn ∈ matchTypes) = false := decide_eq_false hmiss
      simp only [normalizeMatchField, hobj, hfv]
      simp [getRecordType, htn, exceptOk_bind, hd, JSValue.isNull,
        JSValue.isObjectLike]
    | arr xs => simp [JSValue.getField] at htn
    | null => simp [JSValue.isObjectLike] at hfvobj
    | bool b => simp [JSValue.isObjectLike] at hfvobj
    | num n => simp [JSValue.isObjectLike] at hfvobj
    | str s => simp [JSValue.isObjectLike] at hfvobj
  · simp [updateRec]
  · intro id hid
    simp [updateRec, assocGet_assocSet_ne _ _ _ _ (fun h => hid h.symm)]

/-- Witness for C6 at a concrete input: a payload typed `Video` against a
match table containing only `Photo` writes null on the owner. -/
theorem C6_match_unrecognized_type_witness :
    normalizeMatchField exCtx false "media" none "media" ["Photo"] "root"
      (.obj [("media", .obj [("__typename", .str "Video"), ("id", .str "m1")])])
      (initState exSource) =
    .ok (updateRec (initState exSource) "root"
      (fun r => RelayModernRecord.setValue r "media" .null)) :=
  (C6_match_unrecognized_type exCtx false "media" none "media" ["Photo"] "root"
    (.obj [("media", .obj [("__typename", .str "Video"), ("id", .str "m1")])])
    (.obj [("__typename", .str "Video"), ("id", .str "m1")])
    (initState exSource) rfl (by simp [JSValue.getField, strOr]) rfl
    "Video" (by simp [JSValue.getField, TYPENAME_KEY]) (by simp)).1

theorem pushWarning_true (ctx : NormalizerContext) (st : NormalizerState)
    (msg : String) : pushWarning ctx st true msg = st := by
  simp [pushWarning]

/-- C4: a defer selection whose guard variable resolves to false normalizes
its subtree inline with no incremental entry; a guard resolving to true, or
to a non-boolean, appends exactly one incremental entry of kind `defer`
carrying the current path and a selector of the owner record's identity, the
defer subtree and the call's variables, and writes nothing else (on a
non-boolean guard additionally at most a dev diagnostic). -/
theorem C4_defer_semantics (ctx : NormalizerContext) (pal : Bool) (v : String)
    (label : String) (subsels : List Selection) (dataID : DataID)
    (data : JSValue) (st : NormalizerState) :
    (assocGet ctx.vars v = some (.bool false) →
      normalizeSelection ctx pal (.deferNode (some v) label subsels) dataID data st =
        traverseSelections ctx false subsels dataID data st) ∧
    (assocGet ctx.vars v = some (.bool true) →
      normalizeSelection ctx pal (.deferNode (some v) label subsels) dataID data st =
        .ok { st with incrementalPayloads := st.incrementalPayloads ++
          [⟨"defer", label, st.path,
            ⟨RelayModernRecord.getDataID (getRec st dataID),
             Selection.deferNode (some v) label subsels, ctx.vars⟩⟩] }) ∧
    (∀ w, assocGet ctx.vars v = some w → w.isBool = false →
      normalizeSelection ctx pal (.deferNode (some v) label subsels) dataID data st =
        .ok { pushWarning ctx st false
            "RelayResponseNormalizer: Expected value for @defer if argument to be a boolean." with
          incrementalPayloads := (pushWarning ctx st false
            "RelayResponseNormalizer: Expected value for @defer if argument to be a boolean.").incrementalPayloads ++
          [⟨"defer", label,
            (pushWarning ctx st false
              "RelayResponseNormalizer: Expected value for @defer if argument to be a boolean.").path,
            ⟨RelayModernRecord.getDataID (getRec (pushWarning ctx st false
              "RelayResponseNormalizer: Expected value for @defer if argument to be a boolean.") dataID),
             Selection.deferNode (some v) label subsels, ctx.vars⟩⟩] }) := by
  refine ⟨?_, ?_, ?_⟩
  · intro h
    simp [normalizeSelection, getVariableValue, h, exceptOk_bind, JSValue.isBool,
      pushWarning_true, JSValue.strictEq]
  · intro h
    simp [normalizeSelection, getVariableValue, h, exceptOk_bind, JSValue.isBool,
      pushWarning_true, JSValue.strictEq]
  · intro w h hb
    have hs : w.strictEq (.bool false) = false := by
      cases w <;> simp_all [JSValue.isBool, JSValue.strictEq]
    simp [normalizeSelection, getVariableValue, h, exceptOk_bind, hb, hs]

/-- Witness for C4 at concrete inputs: guard false normalizes inline, guard
true appends one defer entry. -/
theorem C4_defer_semantics_witness :
    (normalizeSelection { exCtx with vars := [("g", .bool false)] } false
        (.deferNode (some "g") "lbl" [.scalarField "name" none "name"]) "root"
        (.obj []) (initState exSource) =
      traverseSelections { exCtx with vars := [("g", .bool false)] } false
        [.scalarField "name" none "name"] "root" (.obj []) (initState exSource)) ∧
    (normalizeSelection { exCtx with vars := [("g", .bool true)] } false
        (.deferNode (some "g") "lbl" [.scalarField "name" none "name"]) "root"
        (.obj []) (initState exSource) =
      .ok { initState exSource with incrementalPayloads :=
        [⟨"defer", "lbl", [],
          ⟨"root", Selection.deferNode (some "g") "lbl" [.scalarField "name" none "name"],
           [("g", .bool true)]⟩⟩] }) := by
  constructor
  · exact (C4_defer_semantics { exCtx with vars := [("g", .bool false)] } false
      "g" "lbl" [.scalarField "name" none "name"] "root" (.obj [])
      (initState exSource)).1 rfl
  · have h := (C4_defer_semantics { exCtx with vars := [("g", .bool true)] } false
      "g" "lbl" [.scalarField "name" none "name"] "root" (.obj [])
      (initState exSource)).2.1 rfl
    rw [h]
    rfl

/-- C5: a stream selection always normalizes its subtree inline first; then
exactly when the guard variable resolves to true one incremental entry of
kind `stream` is appended, carrying the current path and a selector pointing
at the owner record; a guard of false appends nothing, and a non-boolean
guard appends nothing beyond at most a dev diagnostic. -/
theorem C5_stream_semantics (ctx : NormalizerContext) (pal : Bool) (v : String)
    (label : String) (subsels : List Selection) (dataID : DataID)
    (data : JSValue) (st st1 : NormalizerState)
    (htrav : traverseSelections ctx false subsels dataID data st = .ok st1) :
    (assocGet ctx.vars v = some (.bool true) →
      normalizeSelection ctx pal (.streamNode (some v) label subsels) dataID data st =
        .ok { st1 with incrementalPayloads := st1.incrementalPayloads ++
          [⟨"stream", label, st1.path,
            ⟨RelayModernRecord.getDataID (getRec st1 dataID),
             Selection.streamNode (some v) label subsels, ctx.vars⟩⟩] }) ∧
    (assocGet ctx.vars v = some (.bool false) →
      normalizeSelection ctx pal (.streamNode (some v) label subsels) dataID data st =
        .ok st1) ∧
    (∀ w, assocGet ctx.vars v = some w → w.isBool = false →
      normalizeSelection ctx pal (.streamNode (some v) label subsels) dataID data st =
        .ok (pushWarning ctx st1 false
          "RelayResponseNormalizer: Expected value for @stream if argument to be a boolean.")) := by
  refine ⟨?_, ?_, ?_⟩
  · intro h
    simp [normalizeSelection, htrav, exceptOk_bind, getVariableValue, h,
      JSValue.isBool, pushWarning_true, JSValue.strictEq]
  · intro h
    simp [normalizeSelection, htrav, exceptOk_bind, getVariableValue, h,
      JSValue.isBool, pushWarning_true, JSValue.strictEq]
  · intro w h hb
    have hs : w.strictEq (.bool true) = false := by
      cases w <;> simp_all [JSValue.isBool, JSValue.strictEq]
    simp [normalizeSelection, htrav, exceptOk_bind, getVariableValue, h, hb, hs]

/-- Witness for C5 at concrete inputs: with guard true and a scalar already
present in the subtree, the subtree is normalized inline and exactly one
stream entry is appended. -/
theorem C5_stream_semantics_witness :
    normalizeSelection { exCtx with vars := [("g", .bool true)] } false
      (.streamNode (some "g") "lbl" [.scalarField "name" none "name"]) "root"
      (.obj [("name", .str "Ada")]) (initState exSource) =
    .ok { recordSource := [("root", ⟨"root", .str "Query",
            [("name", .scalar (.str "Ada"))]⟩)],
          handleFieldPayloads := [],
          incrementalPayloads := [⟨"stream", "lbl", [],
            ⟨"root", Selection.streamNode (some "g") "lbl"
              [.scalarField "name" none "name"], [("g", .bool true)]⟩⟩],
          matchFieldPayloads := [], path := [], warnings := [] } := by
  have htrav : traverseSelections { exCtx with vars := [("g", .bool true)] } false
      [.scalarField "name" none "name"] "root" (.obj [("name", .str "Ada")])
      (initState exSource) =
      .ok { recordSource := [("root", ⟨"root", .str "Query",
              [("name", .scalar (.str "Ada"))]⟩)],
            handleFieldPayloads := [], incrementalPayloads := [],
            matchFieldPayloads := [], path := [], warnings := [] } := by
    simp [traverseSelections, normalizeSelection, normalizeField, strOr,
      JSValue.getField, JSValue.isObjectLike, JSValue.isNull, updateRec, getRec,
      assocGet, assocSet, initState, exSource, exRoot, exCtx,
      RelayModernRecord.setValue, RelayModernRecord.create, exceptOk_bind]
  have h := (C5_stream_semantics { exCtx with vars := [("g", .bool true)] } false
    "g" "lbl" [.scalarField "name" none "name"] "root"
    (.obj [("name", .str "Ada")]) (initState exSource) _ htrav).1 rfl
  rw [h]
  rfl

/-- C10: a condition, defer, or stream selection whose guard names a
variable absent from the call's bindings fails the call with the fatal
undefined-variable error (for stream, after the subtree was already
traversed): the missing binding is not treated as false, skipped or merely
warned about. -/
theorem C10_undefined_variable_fatal (ctx : NormalizerContext) (pal : Bool)
    (v : String) (passingValue : Bool) (label : String)
    (subsels : List Selection) (dataID : DataID) (data : JSValue)
    (st : NormalizerState) (hv : assocGet ctx.vars v = none) :
    (normalizeSelection ctx pal (.condition v passingValue subsels) dataID data st =
      .error "RelayResponseNormalizer(): Undefined variable.") ∧
    (normalizeSelection ctx pal (.deferNode (some v) label subsels) dataID data st =
      .error "RelayResponseNormalizer(): Undefined variable.") ∧
    (∀ st1, traverseSelections ctx false subsels dataID data st = .ok st1 →
      normalizeSelection ctx pal (.streamNode (some v) label subsels) dataID data st =
        .error "RelayResponseNormalizer(): Undefined variable.") := by
  refine ⟨?_, ?_, ?_⟩
  · simp [normalizeSelection, getVariableValue, hv, exceptError_bind]
  · simp [normalizeSelection, getVariableValue, hv, exceptError_bind]
  · intro st1 htrav
    simp [normalizeSelection, htrav, exceptOk_bind, getVariableValue, hv,
      exceptError_bind]

/-- Witness for C10 at concrete inputs: an unbound guard variable is fatal
for condition, defer and stream selections alike. -/
theorem C10_undefined_variable_fatal_witness :
    (normalizeSelection exCtx false (.condition "missing" true []) "root"
      (.obj []) (initState exSource) =
      .error "RelayResponseNormalizer(): Undefined variable.") ∧
    (normalizeSelection exCtx false (.deferNode (some "missing") "lbl" []) "root"
      (.obj []) (initState exSource) =
      .error "RelayResponseNormalizer(): Undefined variable.") ∧
    (normalizeSelection exCtx false (.streamNode (some "missing") "lbl" []) "root"
      (.obj []) (initState exSource) =
      .error "RelayResponseNormalizer(): Undefined variable.") := by
  refine ⟨?_, ?_, ?_⟩
  · exact (C10_undefined_variable_fatal exCtx false "missing" true "lbl" []
      "root" (.obj []) (initState exSource) rfl).1
  · exact (C10_undefined_variable_fatal exCtx false "missing" true "lbl" []
      "root" (.obj []) (initState exSource) rfl).2.1
  · exact (C10_undefined_variable_fatal exCtx false "missing" true "lbl" []
      "root" (.obj []) (initState exSource) rfl).2.2 (initState exSource)
      (by simp [traverseSelections])

theorem getType_setLinkedRecordID (r : Record) (k : String) (i : DataID) :
    RelayModernRecord.getType (RelayModernRecord.setLinkedRecordID r k i) =
      RelayModernRecord.getType r := rfl

theorem pushWarning_recordSource (ctx : NormalizerContext)
    (st : NormalizerState) (cond : Bool) (msg : String) :
    (pushWarning ctx st cond msg).recordSource = st.recordSource := by
  unfold pushWarning
  split <;> rfl

theorem pushWarning_of_dev_false (ctx : NormalizerContext)
    (st : NormalizerState) (cond : Bool) (msg : String)
    (h : ctx.dev = false) : pushWarning ctx st cond msg = st := by
  simp [pushWarning, h]

theorem resolveNextID_of_truthy (v : JSValue) (storedID : Option DataID)
    (generatedID : DataID) (h : v.truthy = true) :
    resolveNextID (some v) storedID generatedID = v := by
  simp [resolveNextID, jsOrOpt, h]

/-- C7: the type-consistency check never aborts and never alters stored
data: whenever the observed type resolves, the validator returns the state
with at most a diagnostic appended (a no-op on equal types); and
re-normalizing a singular link whose target already exists in the store —
under an observed typename differing or not from the stored one — succeeds
and leaves the target's stored type unchanged, with the mismatch surfacing
only as the diagnostic condition. -/
theorem C7_type_check_nonfatal :
    (∀ (ctx : NormalizerContext) (r : Record) (isL : Bool)
       (ct : Option String) (payload : JSValue) (st : NormalizerState)
       (tn : JSValue), fieldTypeName isL ct payload = .ok tn →
      validateRecordType ctx r isL ct payload st =
        .ok (pushWarning ctx st
          (JSValue.strictEq (RelayModernRecord.getType r) tn)
          "RelayResponseNormalizer: record assigned conflicting types.") ∧
      (pushWarning ctx st (JSValue.strictEq (RelayModernRecord.getType r) tn)
        "RelayResponseNormalizer: record assigned conflicting types.").recordSource =
        st.recordSource ∧
      (JSValue.strictEq (RelayModernRecord.getType r) tn = true →
        validateRecordType ctx r isL ct payload st = .ok st)) ∧
    (∀ (ctx : NormalizerContext) (s : DataID) (nr : Record) (tn : String)
       (dataID : DataID) (key : String) (fieldValue : JSValue)
       (st : NormalizerState),
      fieldValue.isObjectLike = true →
      fieldValue.getField "id" = some (.str s) → s ≠ "" →
      assocGet st.recordSource s = some nr →
      fieldValue.getField TYPENAME_KEY = some (.str tn) →
      normalizeLink ctx none [] dataID key fieldValue st =
        .ok (pushWarning ctx
          (updateRec st dataID (fun r => RelayModernRecord.setLinkedRecordID r key s))
          (JSValue.strictEq (RelayModernRecord.getType nr) (.str tn))
          "RelayResponseNormalizer: record assigned conflicting types.") ∧
      RelayModernRecord.getType (getRec (pushWarning ctx
          (updateRec st dataID (fun r => RelayModernRecord.setLinkedRecordID r key s))
          (JSValue.strictEq (RelayModernRecord.getType nr) (.str tn))
          "RelayResponseNormalizer: record assigned conflicting types.") s) =
        RelayModernRecord.getType nr) := by
  constructor
  · intro ctx r isL ct payload st tn h
    refine ⟨?_, pushWarning_recordSource ctx st _ _, ?_⟩
    · simp [validateRecordType, h, exceptOk_bind]
    · intro hc
      simp [validateRecordType, h, exceptOk_bind, hc, pushWarning_true]
  · intro ctx s nr tn dataID key fieldValue st hobj hid hne hlook htn
    have hst : (s != "") = true := by simp [hne]
    have hres := resolveNextID_of_truthy (.str s)
      (RelayModernRecord.getLinkedRecordID (getRec st dataID) key)
      (generateRelayClientID (RelayModernRecord.getDataID (getRec st dataID)) key)
      (by simp [JSValue.truthy, hst])
    have hftn : fieldTypeName true none fieldValue = .ok (.str tn) := by
      simp [fieldTypeName, getRecordType, htn, JSValue.isNull]
    by_cases hds : dataID = s
    · subst hds
      have hgetrec : getRec st dataID = nr := by
        simp [getRec, hlook]
      rw [hgetrec] at hres
      have hlook1 : assocGet (updateRec st dataID
          (fun r => RelayModernRecord.setLinkedRecordID r key dataID)).recordSource dataID =
          some (RelayModernRecord.setLinkedRecordID nr key dataID) := by
        simp [updateRec, assocGet_assocSet_self, hgetrec]
      constructor
      · by_cases hdev : ctx.dev
        · simp [normalizeLink, hobj, hid, hgetrec, hres, hlook1, hdev,
            exceptOk_bind, validateRecordType, hftn, traverseSelections,
            getType_setLinkedRecordID]
        · simp at hdev
          simp [normalizeLink, hobj, hid, hgetrec, hres, hlook1, hdev,
            exceptOk_bind, traverseSelections,
            pushWarning_of_dev_false _ _ _ _ hdev]
      · simp [getRec, pushWarning_recordSource, updateRec,
          assocGet_assocSet_self, hgetrec, getType_setLinkedRecordID, hlook]
    · have hlook1 : assocGet (updateRec st dataID
          (fun r => RelayModernRecord.setLinkedRecordID r key s)).recordSource s =
          some nr := by
        simp [updateRec, assocGet_assocSet_ne _ _ _ _ hds, hlook]
      constructor
      · by_cases hdev : ctx.dev
        · simp [normalizeLink, hobj, hid, hres, hlook1, hdev, exceptOk_bind,
            validateRecordType, hftn, traverseSelections]
        · simp at hdev
          simp [normalizeLink, hobj, hid, hres, hlook1, hdev, exceptOk_bind,
            traverseSelections, pushWarning_of_dev_false _ _ _ _ hdev]
      · simp [getRec, pushWarning_recordSource, updateRec,
          assocGet_assocSet_ne _ _ _ _ hds, hlook]

/-- Shared concrete fixture: a dev-build context with no variables. -/
def exDevCtx : NormalizerContext :=
  { vars := [], handleStrippedNulls := false, dev := true }

/-- Shared concrete fixture: a store with the root and a record `b` of
type `T1`. -/
def exSourceB : RecordSource :=
  [("root", exRoot), ("b", RelayModernRecord.create "b" (.str "T1"))]

/-- Shared concrete fixture: a link payload re-identifying record `b` under
the conflicting type `T2`. -/
def exFVb : JSValue := .obj [("id", .str "b"), ("__typename", .str "T2")]

/-- Witness for C7 at a concrete input: re-normalizing record `b` (stored
type `T1`) under observed type `T2` on a dev build succeeds and leaves the
stored type `T1` intact. -/
theorem C7_type_check_nonfatal_witness :
    normalizeLink exDevCtx none [] "root" "f" exFVb (initState exSourceB) =
      .ok (pushWarning exDevCtx
        (updateRec (initState exSourceB) "root"
          (fun r => RelayModernRecord.setLinkedRecordID r "f" "b"))
        (JSValue.strictEq
          (RelayModernRecord.getType (RelayModernRecord.create "b" (.str "T1")))
          (.str "T2"))
        "RelayResponseNormalizer: record assigned conflicting types.") ∧
    RelayModernRecord.getType (getRec (pushWarning exDevCtx
        (updateRec (initState exSourceB) "root"
          (fun r => RelayModernRecord.setLinkedRecordID r "f" "b"))
        (JSValue.strictEq
          (RelayModernRecord.getType (RelayModernRecord.create "b" (.str "T1")))
          (.str "T2"))
        "RelayResponseNormalizer: record assigned conflicting types.") "b") =
      RelayModernRecord.getType (RelayModernRecord.create "b" (.str "T1")) :=
  C7_type_check_nonfatal.2 exDevCtx "b"
    (RelayModernRecord.create "b" (.str "T1")) "T2" "root" "f" exFVb
    (initState exSourceB) rfl rfl (by decide) rfl rfl

/-- JS-falsiness of an optional id-field read (absent, null, false, zero or
empty string). -/
def idFalsy (idField : Option JSValue) : Bool :=
  match idField with
  | some v => !v.truthy
  | none => true

theorem getRec_withPath (st : NormalizerState) (p : List String) (id : DataID) :
    getRec { st with path := p } id = getRec st id := rfl

/-- C1: the target identity of a singular link, plural-link item or match
field is resolved with precedence (a) truthy server-supplied id, (b) the
identity already stored at the storage key on the owner (per list index for
plural items), (c) the synthesized client identity (indexed by list position
for plural items); and the identity a singular/plural link actually stores
on the owner is exactly this resolution. -/
theorem C1_identity_precedence :
    (∀ (v : JSValue) (storedID : Option DataID) (generatedID : DataID),
      v.truthy = true → resolveNextID (some v) storedID generatedID = v) ∧
    (∀ (idField : Option JSValue) (p : DataID) (generatedID : DataID),
      idFalsy idField = true → p ≠ "" →
      resolveNextID idField (some p) generatedID = .str p) ∧
    (∀ (idField : Option JSValue) (storedID : Option DataID) (generatedID : DataID),
      idFalsy idField = true → (storedID = none ∨ storedID = some "") →
      resolveNextID idField storedID generatedID = .str generatedID) ∧
    (∀ (ctx : NormalizerContext) (ct : String) (dataID : DataID) (key : String)
       (fieldValue : JSValue) (st : NormalizerState) (n : DataID),
      ctx.dev = false → ct ≠ "" → fieldValue.isObjectLike = true →
      resolveNextID (fieldValue.getField "id")
        (RelayModernRecord.getLinkedRecordID (getRec st dataID) key)
        (generateRelayClientID (RelayModernRecord.getDataID (getRec st dataID)) key) =
        .str n →
      Except.map (fun st' => RelayModernRecord.getLinkedRecordID (getRec st' dataID) key)
        (normalizeLink ctx (some ct) [] dataID key fieldValue st) = .ok (some n)) ∧
    (∀ (ctx : NormalizerContext) (ct : String) (dataID : DataID) (key : String)
       (prevIDs : Option (List (Option DataID))) (item : JSValue) (idx : Nat)
       (st : NormalizerState) (n : DataID),
      ctx.dev = false → ct ≠ "" → item.isNull = false → item.isObjectLike = true →
      resolveNextID (item.getField "id") (prevAt prevIDs idx)
        (generateRelayClientIDIndexed (RelayModernRecord.getDataID (getRec st dataID))
          key idx) = .str n →
      Except.map (fun r => r.2)
        (pluralItems ctx (some ct) [] dataID key prevIDs [item] idx st) =
        .ok [some n]) := by
  refine ⟨?_, ?_, ?_, ?_, ?_⟩
  · intro v storedID generatedID h
    simp [resolveNextID, jsOrOpt, h]
  · intro idField p generatedID hf hp
    have hp' : (p != "") = true := by simp [hp]
    cases idField with
    | none => simp [resolveNextID, jsOrOpt, JSValue.truthy, hp']
    | some v =>
      have hv : v.truthy = false := by simpa [idFalsy] using hf
      simp only [resolveNextID, jsOrOpt, hv]
      simp [JSValue.truthy, hp']
  · intro idField storedID generatedID hf hs
    rcases hs with h | h <;> subst h
    · cases idField with
      | none => simp [resolveNextID, jsOrOpt]
      | some v =>
        have hv : v.truthy = false := by simpa [idFalsy] using hf
        simp [resolveNextID, jsOrOpt, hv]
    · cases idField with
      | none => simp [resolveNextID, jsOrOpt, JSValue.truthy]
      | some v =>
        have hv : v.truthy = false := by simpa [idFalsy] using hf
        simp only [resolveNextID, jsOrOpt, hv]
        simp [JSValue.truthy]
  · intro ctx ct dataID key fieldValue st n hdev hct hobj hres
    have hftn : fieldTypeName true (some ct) fieldValue = Except.ok (.str ct) := by
      simp [fieldTypeName, hct]
    cases h2 : assocGet (updateRec st dataID
        (fun r => RelayModernRecord.setLinkedRecordID r key n)).recordSource n with
    | none =>
      have hnd : n ≠ dataID := by
        intro h
        subst h
        simp [updateRec, assocGet_assocSet_self] at h2
      simp only [normalizeLink, hobj, hres, h2, exceptOk_bind, hftn, hdev,
        traverseSelections, Bool.not_true, Bool.false_eq_true, if_false]
      simp [Except.map, exceptOk_bind, getRec, updateRec,
        assocGet_assocSet_ne _ _ _ _ hnd, assocGet_assocSet_self,
        RelayModernRecord.getLinkedRecordID, RelayModernRecord.setLinkedRecordID]
    | some nr =>
      simp only [normalizeLink, hobj, hres, h2, exceptOk_bind, hftn, hdev,
        traverseSelections, Bool.not_true, Bool.false_eq_true, if_false]
      simp [Except.map, exceptOk_bind, getRec_updateRec_self,
        RelayModernRecord.getLinkedRecordID, RelayModernRecord.setLinkedRecordID,
        assocGet_assocSet_self]
  · intro ctx ct dataID key prevIDs item idx st n hdev hct hinull hobj hres
    have hftn : fieldTypeName true (some ct) item = Except.ok (.str ct) := by
      simp [fieldTypeName, hct]
    cases h2 : assocGet st.recordSource n with
    | none =>
      simp only [pluralItems, hinull, hobj, getRec_withPath, hres, h2,
        exceptOk_bind, hftn, hdev, traverseSelections, Bool.not_true,
        Bool.false_eq_true, if_false]
      simp [Except.map, exceptOk_bind]
    | some nr =>
      simp only [pluralItems, hinull, hobj, getRec_withPath, hres, h2,
        exceptOk_bind, hftn, hdev, traverseSelections, Bool.not_true,
        Bool.false_eq_true, if_false]
      simp [Except.map, exceptOk_bind]

/-- Witness for C1 at concrete inputs: all three precedence sources, and the
stored identity of a singular link and of a plural item at index 0. -/
theorem C1_identity_precedence_witness :
    resolveNextID (some (.str "srv")) (some "old") "gen" = .str "srv" ∧
    resolveNextID none (some "old") "gen" = .str "old" ∧
    resolveNextID none none "gen" = .str "gen" ∧
    Except.map (fun st' => RelayModernRecord.getLinkedRecordID (getRec st' "root") "f")
      (normalizeLink exCtx (some "T") [] "root" "f" (.obj [("x", .num 1)])
        (initState exSource)) = .ok (some "root:f") ∧
    Except.map (fun r => r.2)
      (pluralItems exCtx (some "T") [] "root" "f" none [.obj []] 0
        (initState exSource)) = .ok [some "root:f:0"] :=
  ⟨C1_identity_precedence.1 (.str "srv") (some "old") "gen" rfl,
   C1_identity_precedence.2.1 none "old" "gen" rfl (by decide),
   C1_identity_precedence.2.2.1 none none "gen" rfl (Or.inl rfl),
   C1_identity_precedence.2.2.2.1 exCtx "T" "root" "f" (.obj [("x", .num 1)])
     (initState exSource) "root:f" rfl (by decide) rfl rfl,
   C1_identity_precedence.2.2.2.2 exCtx "T" "root" "f" none (.obj []) 0
     (initState exSource) "root:f:0" rfl (by decide) rfl rfl rfl⟩

/-- Inversion of a successful monadic bind on `Except`. -/
theorem exceptBind_ok_iff {e a b : Type} (x : Except e a) (f : a → Except e b)
    (y : b) : (x >>= f) = .ok y ↔ ∃ z, x = .ok z ∧ f z = .ok y := by
  cases x with
  | error msg => simp [exceptError_bind]
  | ok z => simp [exceptOk_bind]

/-- The identity list built by the plural item loop has one entry per item:
`none` exactly at the null items, an identity at the non-null ones. -/
theorem pluralItems_shape (ctx : NormalizerContext) (ct : Option String)
    (subsels : List Selection) (dataID : DataID) (key : String)
    (prevIDs : Option (List (Option DataID))) :
    ∀ (items : List JSValue) (idx : Nat) (st st' : NormalizerState)
      (ids : List (Option DataID)),
      pluralItems ctx ct subsels dataID key prevIDs items idx st = .ok (st', ids) →
      ids.length = items.length ∧
      ∀ j v, items.get? j = some v →
        (v.isNull = true → ids.get? j = some none) ∧
        (v.isNull = false → ∃ n, ids.get? j = some (some n)) := by
  intro items
  induction items with
  | nil =>
    intro idx st st' ids h
    simp only [pluralItems, Except.ok.injEq, Prod.mk.injEq] at h
    obtain ⟨-, hids⟩ := h
    subst hids
    simp
  | cons item rest ih =>
    intro idx st st' ids h
    rw [pluralItems] at h
    split at h
    · -- null item keeps its position without recursion
      rename_i hnull
      rw [exceptBind_ok_iff] at h
      obtain ⟨z, hrec, hok⟩ := h
      simp only [Except.ok.injEq, Prod.mk.injEq] at hok
      obtain ⟨-, hids⟩ := hok
      subst hids
      obtain ⟨hlen, hpt⟩ := ih (idx + 1) st z.1 z.2 hrec
      refine ⟨by simp [hlen], ?_⟩
      intro j v hj
      cases j with
      | zero =>
        simp only [List.get?] at hj
        cases hj
        simp [hnull]
      | succ j =>
        simp only [List.get?] at hj ⊢
        exact hpt j v hj
    · -- non-null item
      rename_i hnull
      split at h
      · simp at h
      · rename_i hobj
        dsimp only at h
        rcases hres : resolveNextID (item.getField "id") (prevAt prevIDs idx)
            (generateRelayClientIDIndexed
              (RelayModernRecord.getDataID
                (getRec { st with path := st.path ++ [toString idx] } dataID))
              key idx) with _ | b | nn | nextID | fs | its
        all_goals rw [hres] at h
        all_goals simp only [] at h
        case str =>
          have tail : ∀ (stx : NormalizerState)
              (z3 : NormalizerState × List (Option DataID)),
              pluralItems ctx ct subsels dataID key prevIDs rest (idx + 1) stx =
                .ok z3 →
              some nextID :: z3.2 = ids →
              ids.length = (item :: rest).length ∧
              ∀ j v, (item :: rest).get? j = some v →
                (v.isNull = true → ids.get? j = some none) ∧
                (v.isNull = false → ∃ n, ids.get? j = some (some n)) := by
            intro stx z3 hrec hids
            subst hids
            obtain ⟨hlen, hpt⟩ := ih (idx + 1) stx z3.1 z3.2 hrec
            refine ⟨by simp [hlen], ?_⟩
            intro j v hj
            cases j with
            | zero =>
              simp only [List.get?] at hj
              cases hj
              constructor
              · intro hn
                simp [hn] at hnull
              · intro
                exact ⟨nextID, rfl⟩
            | succ j =>
              simp only [List.get?] at hj ⊢
              exact hpt j v hj
          rcases hlook : assocGet st.recordSource nextID with _ | nextRecord <;>
            rw [hlook] at h <;> dsimp only at h
          · simp only [exceptBind_ok_iff, Except.ok.injEq, Prod.mk.injEq] at h
            obtain ⟨tn, -, y, -, z2, -, z3, hrec, -, hids⟩ := h
            exact tail _ z3 hrec hids
          · by_cases hdev : ctx.dev = true
            · rw [if_pos hdev] at h
              simp only [exceptBind_ok_iff, Except.ok.injEq, Prod.mk.injEq] at h
              obtain ⟨y, -, z2, -, z3, hrec, -, hids⟩ := h
              exact tail _ z3 hrec hids
            · rw [if_neg hdev] at h
              simp only [exceptBind_ok_iff, Except.ok.injEq, Prod.mk.injEq] at h
              obtain ⟨y, -, z2, -, z3, hrec, -, hids⟩ := h
              exact tail _ z3 hrec hids
        all_goals simp at h

/-- C3: a plural linked field over a response array stores, at the owner's
storage key, a full replacement identity list of the same length as the
array, with `none` exactly at the null items (positions preserved) and an
identity at every non-null item. -/
theorem C3_plural_list_replacement (ctx : NormalizerContext)
    (concreteType : Option String) (subsels : List Selection) (dataID : DataID)
    (storageKey : String) (items : List JSValue) (st st' : NormalizerState)
    (h : normalizePluralLink ctx concreteType subsels dataID storageKey
      (.arr items) st = .ok st') :
    ∃ ids, assocGet (getRec st' dataID).fields storageKey = some (.refs ids) ∧
      RelayModernRecord.getLinkedRecordIDs (getRec st' dataID) storageKey = some ids ∧
      ids.length = items.length ∧
      ∀ j v, items.get? j = some v →
        (v.isNull = true → ids.get? j = some none) ∧
        (v.isNull = false → ∃ n, ids.get? j = some (some n)) := by
  simp only [normalizePluralLink] at h
  rw [exceptBind_ok_iff] at h
  obtain ⟨res, hitems, hok⟩ := h
  simp only [Except.ok.injEq] at hok
  subst hok
  obtain ⟨hlen, hpt⟩ := pluralItems_shape ctx concreteType subsels dataID
    storageKey _ items 0 st res.1 res.2 hitems
  refine ⟨res.2, ?_, ?_, hlen, hpt⟩
  · simp [getRec_updateRec_self, RelayModernRecord.setLinkedRecordIDs,
      assocGet_assocSet_self]
  · simp [getRec_updateRec_self, RelayModernRecord.setLinkedRecordIDs,
      RelayModernRecord.getLinkedRecordIDs, assocGet_assocSet_self]

/-- Witness for C3 at the spec's example input `[{id:a}, null, {id:b}]`: the
stored list has length three with `none` preserved in the middle. -/
theorem C3_plural_list_replacement_witness :
    ∃ ids, assocGet (getRec (updateRec
        { recordSource := [("root", exRoot), ("a", ⟨"a", .str "T", []⟩),
            ("b", ⟨"b", .str "T", []⟩)],
          handleFieldPayloads := [], incrementalPayloads := [],
          matchFieldPayloads := [], path := [], warnings := [] } "root"
        (fun r => RelayModernRecord.setLinkedRecordIDs r "friends"
          [some "a", none, some "b"])) "root").fields "friends" =
        some (.refs ids) ∧
      RelayModernRecord.getLinkedRecordIDs (getRec (updateRec
        { recordSource := [("root", exRoot), ("a", ⟨"a", .str "T", []⟩),
            ("b", ⟨"b", .str "T", []⟩)],
          handleFieldPayloads := [], incrementalPayloads := [],
          matchFieldPayloads := [], path := [], warnings := [] } "root"
        (fun r => RelayModernRecord.setLinkedRecordIDs r "friends"
          [some "a", none, some "b"])) "root") "friends" = some ids ∧
      ids.length = [JSValue.obj [("id", .str "a")], JSValue.null,
        JSValue.obj [("id", .str "b")]].length ∧
      ∀ j v, [JSValue.obj [("id", .str "a")], JSValue.null,
          JSValue.obj [("id", .str "b")]].get? j = some v →
        (v.isNull = true → ids.get? j = some none) ∧
        (v.isNull = false → ∃ n, ids.get? j = some (some n)) := by
  refine C3_plural_list_replacement exCtx (some "T") [] "root" "friends"
    [JSValue.obj [("id", .str "a")], JSValue.null, JSValue.obj [("id", .str "b")]]
    (initState exSource) _ ?_
  simp [normalizePluralLink, pluralItems, getRec, updateRec, initState, exSource,
    exRoot, getRec_withPath, resolveNextID, jsOrOpt, JSValue.getField,
    JSValue.truthy, JSValue.isNull, JSValue.isObjectLike, prevAt, assocGet,
    assocSet, RelayModernRecord.getLinkedRecordIDs, RelayModernRecord.getDataID,
    RelayModernRecord.create, RelayModernRecord.setLinkedRecordIDs,
    traverseSelections, fieldTypeName, exceptOk_bind, exCtx]

/-- Sequential application of a list of keyed writes to an associative list
(last write per key wins; first write of a fresh key fixes its position). -/
def applyWrites {β : Type} (fields : List (String × β)) :
    List (String × β) → List (String × β)
  | [] => fields
  | (k, v) :: rest => applyWrites (assocSet fields k v) rest

theorem assocSet_assocSet_same {β : Type} (l : List (String × β)) (k : String)
    (a b : β) : assocSet (assocSet l k a) k b = assocSet l k b := by
  induction l with
  | nil => simp [assocSet]
  | cons p rest ih =>
    obtain ⟨k1, v1⟩ := p
    by_cases h : k1 = k
    · simp [assocSet, h]
    · simp [assocSet, h, ih]

theorem assocSet_of_lookup_eq {β : Type} (l : List (String × β)) (k : String)
    (v : β) (h : assocGet l k = some v) : assocSet l k v = l := by
  induction l with
  | nil => simp [assocGet] at h
  | cons p rest ih =>
    obtain ⟨k1, v1⟩ := p
    by_cases h1 : k1 = k
    · subst h1
      simp [assocGet] at h
      simp [assocSet, h]
    · simp [assocGet, h1] at h
      simp [assocSet, h1, ih h]

theorem assocGet_assocSet_isSome {β : Type} (l : List (String × β))
    (k k' : String) (v : β) (h : (assocGet l k).isSome = true) :
    (assocGet (assocSet l k' v) k).isSome = true := by
  by_cases he : k' = k
  · subst he
    simp [assocGet_assocSet_self]
  · rwa [assocGet_assocSet_ne _ _ _ _ he]

theorem assocSet_comm_of_isSome {β : Type} (l : List (String × β))
    (k k' : String) (v v' : β) (hne : k ≠ k')
    (h : (assocGet l k).isSome = true) :
    assocSet (assocSet l k v) k' v' = assocSet (assocSet l k' v') k v := by
  induction l with
  | nil => simp [assocGet] at h
  | cons p rest ih =>
    obtain ⟨k1, v1⟩ := p
    by_cases h1 : k1 = k
    · subst h1
      have hne' : ¬ k1 = k' := hne
      simp [assocSet, hne']
    · by_cases h2 : k1 = k'
      · subst h2
        have hne' : ¬ k1 = k := fun hh => hne hh.symm
        simp [assocSet, h1, hne']
      · simp [assocGet, h1] at h
        simp [assocSet, h1, h2, ih h]

theorem applyWrites_lookup_of_not_mem {β : Type} (ws : List (String × β))
    (k : String) (hk : k ∉ ws.map Prod.fst) :
    ∀ fields : List (String × β),
      assocGet (applyWrites fields ws) k = assocGet fields k := by
  induction ws with
  | nil => intro fields; rfl
  | cons p rest ih =>
    obtain ⟨k1, v1⟩ := p
    intro fields
    simp only [List.map, List.mem_cons] at hk
    push_neg at hk
    rw [applyWrites, ih (by simpa using hk.2),
      assocGet_assocSet_ne _ _ _ _ (fun hh => hk.1 hh.symm)]

theorem applyWrites_isSome {β : Type} (ws : List (String × β)) (k : String) :
    ∀ fields : List (String × β), (assocGet fields k).isSome = true →
      (assocGet (applyWrites fields ws) k).isSome = true := by
  induction ws with
  | nil => intro fields h; exact h
  | cons p rest ih =>
    obtain ⟨k1, v1⟩ := p
    intro fields h
    exact ih _ (assocGet_assocSet_isSome _ _ _ _ h)

theorem applyWrites_absorb {β : Type} (ws : List (String × β)) (k : String)
    (w : β) : ∀ fields : List (String × β),
      (assocGet fields k).isSome = true → k ∈ ws.map Prod.fst →
      applyWrites (assocSet fields k w) ws = applyWrites fields ws := by
  induction ws with
  | nil => intro fields _ hk; simp at hk
  | cons p rest ih =>
    obtain ⟨k1, v1⟩ := p
    intro fields hsome hk
    by_cases h1 : k1 = k
    · subst h1
      rw [applyWrites, assocSet_assocSet_same, applyWrites]
    · rw [applyWrites, assocSet_comm_of_isSome _ _ _ _ _ (fun hh => h1 hh.symm) hsome,
        applyWrites]
      have hk' : k ∈ rest.map Prod.fst := by
        simp only [List.map, List.mem_cons] at hk
        rcases hk with hk | hk
        · exact absurd hk.symm h1
        · exact hk
      exact ih _ (assocGet_assocSet_isSome _ _ _ _ hsome) hk'

theorem applyWrites_idem {β : Type} (ws : List (String × β)) :
    ∀ fields : List (String × β),
      applyWrites (applyWrites fields ws) ws = applyWrites fields ws := by
  induction ws with
  | nil => intro fields; rfl
  | cons p rest ih =>
    obtain ⟨k, v⟩ := p
    intro fields
    rw [applyWrites, applyWrites]
    by_cases hk : k ∈ rest.map Prod.fst
    · rw [applyWrites_absorb rest k v _
        (applyWrites_isSome rest k _ (by simp [assocGet_assocSet_self])) hk]
      exact ih _
    · have hlook : assocGet (applyWrites (assocSet fields k v) rest) k = some v := by
        rw [applyWrites_lookup_of_not_mem rest k hk, assocGet_assocSet_self]
      rw [assocSet_of_lookup_eq _ _ _ hlook]
      exact ih _

theorem applyWrites_lookup_of_mem {β : Type} (P : β → Prop)
    (ws : List (String × β)) (k : String) (hP : ∀ kv ∈ ws, P kv.2) :
    k ∈ ws.map Prod.fst → ∀ fields : List (String × β),
      ∃ w, assocGet (applyWrites fields ws) k = some w ∧ P w := by
  induction ws with
  | nil => intro hk; simp at hk
  | cons p rest ih =>
    obtain ⟨k1, v1⟩ := p
    intro hk fields
    by_cases hk' : k ∈ rest.map Prod.fst
    · exact ih (fun kv hkv => hP kv (by simp [hkv])) hk' _
    · have h1 : k1 = k := by
        simp only [List.map, List.mem_cons] at hk
        rcases hk with hk | hk
        · exact hk.symm
        · exact absurd hk hk'
      subst h1
      refine ⟨v1, ?_, hP (k1, v1) (by simp)⟩
      rw [applyWrites, applyWrites_lookup_of_not_mem rest k1 hk',
        assocGet_assocSet_self]

/-- Whether a selection is a scalar field. -/
def isScalarSel : Selection → Bool
  | .scalarField .. => true
  | _ => false

/-- The write a scalar field performs on its record (storage key and stored
value), if any: an absent response key writes nothing unless
`handleStrippedNulls` is set. -/
def scalarWrite (ctx : NormalizerContext) (data : JSValue) :
    Selection → Option (String × StoredValue)
  | .scalarField name aliasName storageKey =>
    match data.getField (strOr aliasName name) with
    | none =>
      if ctx.handleStrippedNulls then some (storageKey, .scalar .null) else none
    | some fv =>
      if fv.isNull then some (storageKey, .scalar .null)
      else some (storageKey, .scalar fv)
  | _ => none

/-- The ordered write list a scalar-only selection list performs. -/
def scalarWrites (ctx : NormalizerContext) (data : JSValue)
    (sels : List Selection) : List (String × StoredValue) :=
  sels.filterMap (scalarWrite ctx data)

/-- The state reached by replacing one record's fields in the source. -/
def withFields (st : NormalizerState) (cid : DataID) (r : Record)
    (fs : List (String × StoredValue)) : NormalizerState :=
  { st with recordSource := assocSet st.recordSource cid { r with fields := fs } }

/-- On a production build, traversing a scalar-only selection list over an
object-like response applies exactly its write list to the record's fields
and touches nothing else. -/
theorem traverseScalars (ctx : NormalizerContext) (hdev : ctx.dev = false)
    (data : JSValue) (hobj : data.isObjectLike = true) (cid : DataID) :
    ∀ (sels : List Selection), (∀ sel ∈ sels, isScalarSel sel = true) →
    ∀ (pal : Bool) (st : NormalizerState) (r : Record),
      assocGet st.recordSource cid = some r →
      traverseSelections ctx pal sels cid data st =
        .ok (withFields st cid r
          (applyWrites r.fields (scalarWrites ctx data sels))) := by
  intro sels
  induction sels with
  | nil =>
    intro _ pal st r hpres
    rw [traverseSelections]
    simp [withFields, scalarWrites, applyWrites,
      assocSet_of_lookup_eq _ _ _ hpres]
  | cons sel rest ih =>
    intro hsc pal st r hpres
    have hsel := hsc sel (by simp)
    have hscRest : ∀ s ∈ rest, isScalarSel s = true :=
      fun s hs => hsc s (by simp [hs])
    cases sel with
    | linkedField a b c d e f => simp [isScalarSel] at hsel
    | matchField a b c d => simp [isScalarSel] at hsel
    | condition a b c => simp [isScalarSel] at hsel
    | inlineFragment a b => simp [isScalarSel] at hsel
    | scalarHandle a b c d => simp [isScalarSel] at hsel
    | linkedHandle a b c d => simp [isScalarSel] at hsel
    | deferNode a b c => simp [isScalarSel] at hsel
    | streamNode a b c => simp [isScalarSel] at hsel
    | fragmentNode a => simp [isScalarSel] at hsel
    | scalarField name aliasName storageKey =>
      rcases hget : data.getField (strOr aliasName name) with _ | fv
      · by_cases hstrip : ctx.handleStrippedNulls = true
        · have hstep : normalizeSelection ctx pal
              (.scalarField name aliasName storageKey) cid data st =
              .ok (updateRec st cid
                (fun rr => RelayModernRecord.setValue rr storageKey .null)) := by
            simp [normalizeSelection, normalizeField, hobj, hget, hstrip,
              pushWarning_of_dev_false _ _ _ _ hdev]
          have hw : scalarWrite ctx data (.scalarField name aliasName storageKey) =
              some (storageKey, .scalar .null) := by
            simp [scalarWrite, hget, hstrip]
          have hpres' : assocGet (updateRec st cid
              (fun rr => RelayModernRecord.setValue rr storageKey .null)).recordSource
              cid = some (RelayModernRecord.setValue r storageKey .null) := by
            simp [updateRec, assocGet_assocSet_self, getRec, hpres]
          rw [traverseSelections, hstep, exceptOk_bind,
            ih hscRest pal _ _ hpres']
          simp [withFields, updateRec, getRec, hpres, assocSet_assocSet_same,
            RelayModernRecord.setValue, scalarWrites, hw, applyWrites]
        · have hstrip' : ctx.handleStrippedNulls = false := by
            simpa using hstrip
          have hstep : normalizeSelection ctx pal
              (.scalarField name aliasName storageKey) cid data st = .ok st := by
            simp [normalizeSelection, normalizeField, hobj, hget, hstrip']
          have hw : scalarWrite ctx data (.scalarField name aliasName storageKey) =
              none := by
            simp [scalarWrite, hget, hstrip']
          rw [traverseSelections, hstep, exceptOk_bind, ih hscRest pal st r hpres]
          simp [withFields, scalarWrites, hw]
      · by_cases hnull : fv.isNull = true
        · have hstep : normalizeSelection ctx pal
              (.scalarField name aliasName storageKey) cid data st =
              .ok (updateRec st cid
                (fun rr => RelayModernRecord.setValue rr storageKey .null)) := by
            have hfv : fv = .null := by cases fv <;> simp_all [JSValue.isNull]
            subst hfv
            simp [normalizeSelection, normalizeField, hobj, hget, JSValue.isNull]
          have hw : scalarWrite ctx data (.scalarField name aliasName storageKey) =
              some (storageKey, .scalar .null) := by
            simp [scalarWrite, hget, hnull]
          have hpres' : assocGet (updateRec st cid
              (fun rr => RelayModernRecord.setValue rr storageKey .null)).recordSource
              cid = some (RelayModernRecord.setValue r storageKey .null) := by
            simp [updateRec, assocGet_assocSet_self, getRec, hpres]
          rw [traverseSelections, hstep, exceptOk_bind,
            ih hscRest pal _ _ hpres']
          simp [withFields, updateRec, getRec, hpres, assocSet_assocSet_same,
            RelayModernRecord.setValue, scalarWrites, hw, applyWrites]
        · have hnull' : fv.isNull = false := by simpa using hnull
          have hstep : normalizeSelection ctx pal
              (.scalarField name aliasName storageKey) cid data st =
              .ok (updateRec st cid
                (fun rr => RelayModernRecord.setValue rr storageKey fv)) := by
            simp [normalizeSelection, normalizeField, hobj, hget, hnull']
          have hw : scalarWrite ctx data (.scalarField name aliasName storageKey) =
              some (storageKey, .scalar fv) := by
            simp [scalarWrite, hget, hnull']
          have hpres' : assocGet (updateRec st cid
              (fun rr => RelayModernRecord.setValue rr storageKey fv)).recordSource
              cid = some (RelayModernRecord.setValue r storageKey fv) := by
            simp [updateRec, assocGet_assocSet_self, getRec, hpres]
          rw [traverseSelections, hstep, exceptOk_bind,
            ih hscRest pal _ _ hpres']
          simp [withFields, updateRec, getRec, hpres, assocSet_assocSet_same,
            RelayModernRecord.setValue, scalarWrites, hw, applyWrites]

theorem generateRelayClientID_ne_empty (id : DataID) (storageKey : String) :
    generateRelayClientID id storageKey ≠ "" := by
  intro h
  have hlen : (id ++ ":" ++ storageKey).length = (0 : Nat) := by
    rw [show id ++ ":" ++ storageKey = generateRelayClientID id storageKey from rfl, h]
    rfl
  rw [String.length_append, String.length_append] at hlen
  have hone : (":" : String).length = 1 := rfl
  omega

theorem resolveNextID_str_ne_empty (idField : Option JSValue)
    (storedID : Option DataID) (generatedID m : DataID)
    (h : resolveNextID idField storedID generatedID = .str m)
    (hg : generatedID ≠ "") : m ≠ "" := by
  intro hm
  subst hm
  rcases idField with _ | v
  · rcases storedID with _ | p
    · simp [resolveNextID, jsOrOpt] at h
      exact hg h
    · by_cases hp : (JSValue.str p).truthy = true
      · simp [resolveNextID, jsOrOpt, hp] at h
        subst h
        simp [JSValue.truthy] at hp
      · simp at hp
        simp [resolveNextID, jsOrOpt, hp] at h
        exact hg h
  · by_cases hv : v.truthy = true
    · simp [resolveNextID, jsOrOpt, hv] at h
      subst h
      simp [JSValue.truthy] at hv
    · simp at hv
      rcases storedID with _ | p
      · simp [resolveNextID, jsOrOpt, hv] at h
        exact hg h
      · by_cases hp : (JSValue.str p).truthy = true
        · simp [resolveNextID, jsOrOpt, hv, hp] at h
          subst h
          simp [JSValue.truthy] at hp
        · simp at hp
          simp [resolveNextID, jsOrOpt, hv, hp] at h
          exact hg h

theorem resolveNextID_stable (idField : Option JSValue)
    (storedID : Option DataID) (generatedID m : DataID)
    (h : resolveNextID idField storedID generatedID = .str m) (hm : m ≠ "") :
    resolveNextID idField (some m) generatedID = .str m := by
  have hmt : (JSValue.str m).truthy = true := by simp [JSValue.truthy, hm]
  rcases idField with _ | v
  · simp [resolveNextID, jsOrOpt, hmt]
  · by_cases hv : v.truthy = true
    · simp [resolveNextID, jsOrOpt, hv] at h ⊢
      exact h
    · simp at hv
      simp [resolveNextID, jsOrOpt, hv, hmt]

theorem scalarWrites_values_scalar (ctx : NormalizerContext) (data : JSValue)
    (sels : List Selection) :
    ∀ kv ∈ scalarWrites ctx data sels, ∃ v, kv.2 = StoredValue.scalar v := by
  intro kv hkv
  rcases kv with ⟨wk, wv⟩
  simp only [scalarWrites, List.mem_filterMap] at hkv
  obtain ⟨sel, -, hsel⟩ := hkv
  cases sel with
  | scalarField name aliasName storageKey =>
    simp only [scalarWrite] at hsel
    rcases hget : data.getField (strOr aliasName name) with _ | fv <;>
      rw [hget] at hsel
    · rcases hstrip : ctx.handleStrippedNulls <;> simp [hstrip] at hsel
      exact ⟨.null, hsel.2.symm⟩
    · rcases hnull : fv.isNull <;> simp [hnull] at hsel
      · exact ⟨fv, hsel.2.symm⟩
      · exact ⟨.null, hsel.2.symm⟩
  | linkedField a b c d e f => simp [scalarWrite] at hsel
  | matchField a b c d => simp [scalarWrite] at hsel
  | condition a b c => simp [scalarWrite] at hsel
  | inlineFragment a b => simp [scalarWrite] at hsel
  | scalarHandle a b c d => simp [scalarWrite] at hsel
  | linkedHandle a b c d => simp [scalarWrite] at hsel
  | deferNode a b c => simp [scalarWrite] at hsel
  | streamNode a b c => simp [scalarWrite] at hsel
  | fragmentNode a => simp [scalarWrite] at hsel

/-- C9 (amended): re-normalizing one singular linked field with the same
response against the store produced by its first normalization is idempotent
when the field's subtree holds only scalar fields and the target is a record
other than the owner: the second call succeeds, resolves the same target
identity (the server id if present, else the identity the first call
stored), and leaves the record store unchanged. -/
theorem C9_single_link_rescan_idempotent (ctx : NormalizerContext)
    (ct : Option String) (subsels : List Selection) (dataID n : DataID)
    (key : String) (fv : JSValue) (st st1 : NormalizerState)
    (hdev : ctx.dev = false)
    (hsc : ∀ sel ∈ subsels, isScalarSel sel = true)
    (h1 : normalizeLink ctx ct subsels dataID key fv st = .ok st1)
    (hn : RelayModernRecord.getLinkedRecordID (getRec st1 dataID) key = some n)
    (hnd : n ≠ dataID)
    (hfp : List HandleFieldPayload) (ifp : List IncrementalDataPayload)
    (mfp : List MatchFieldPayload) (pth wns : List String) :
    normalizeLink ctx ct subsels dataID key fv
      ⟨st1.recordSource, hfp, ifp, mfp, pth, wns⟩ =
      .ok ⟨st1.recordSource, hfp, ifp, mfp, pth, wns⟩ := by
  by_cases hobj : fv.isObjectLike = true
  · rw [normalizeLink] at h1
    simp only [hobj, Bool.not_true, Bool.false_eq_true, if_false] at h1
    rcases hres : resolveNextID (fv.getField "id")
        (RelayModernRecord.getLinkedRecordID (getRec st dataID) key)
        (generateRelayClientID
          (RelayModernRecord.getDataID (getRec st dataID)) key)
        with _ | b | nn | n1 | fs | its <;> rw [hres] at h1
    rotate_left 3
    · dsimp only at h1
      have hupd : updateRec st dataID
          (fun r => RelayModernRecord.setLinkedRecordID r key n1) =
          { st with recordSource := (assocSet st.recordSource dataID
            (RelayModernRecord.setLinkedRecordID (getRec st dataID) key n1)) } := rfl
      rw [hupd] at h1
      have downstream : ∀ r4 : Record,
          st1.recordSource = assocSet
            (assocSet st.recordSource dataID
              (RelayModernRecord.setLinkedRecordID (getRec st dataID) key n1))
            n1 r4 →
          applyWrites r4.fields (scalarWrites ctx fv subsels) = r4.fields →
          (n1 = dataID → r4.fields = applyWrites
            (RelayModernRecord.setLinkedRecordID (getRec st dataID) key n1).fields
            (scalarWrites ctx fv subsels)) →
          normalizeLink ctx ct subsels dataID key fv
            ⟨st1.recordSource, hfp, ifp, mfp, pth, wns⟩ =
            .ok ⟨st1.recordSource, hfp, ifp, mfp, pth, wns⟩ := by
        intro r4 hsrc1 happly hdia
        by_cases hcase : n1 = dataID
        · -- the link cannot point back at the owner here: the stored value
          -- at the key would be either a scalar overwrite or the owner id
          subst hcase
          exfalso
          have hget1 : getRec st1 n1 = r4 := by
            simp [getRec, hsrc1, assocGet_assocSet_self]
          rw [hget1] at hn
          by_cases hkW : key ∈ (scalarWrites ctx fv subsels).map Prod.fst
          · obtain ⟨w, hw, v, hv⟩ := applyWrites_lookup_of_mem
              (fun b => ∃ v, b = StoredValue.scalar v) (scalarWrites ctx fv subsels)
              key (scalarWrites_values_scalar ctx fv subsels) hkW
              (RelayModernRecord.setLinkedRecordID (getRec st n1) key n1).fields
            subst hv
            simp only [RelayModernRecord.getLinkedRecordID] at hn
            rw [hdia rfl, hw] at hn
            simp at hn
          · have hlk : assocGet r4.fields key = some (.ref n1) := by
              rw [hdia rfl, applyWrites_lookup_of_not_mem _ _ hkW]
              simp [RelayModernRecord.setLinkedRecordID, assocGet_assocSet_self]
            simp only [RelayModernRecord.getLinkedRecordID] at hn
            rw [hlk] at hn
            simp at hn
            exact hnd hn.symm
        · -- the first call stored the resolved identity on the owner
          have hget1 : assocGet st1.recordSource dataID =
              some (RelayModernRecord.setLinkedRecordID (getRec st dataID) key n1) := by
            rw [hsrc1, assocGet_assocSet_ne _ _ _ _ hcase,
              assocGet_assocSet_self]
          have hn1n : n1 = n := by
            have hx := hn
            rw [getRec, hget1] at hx
            simp only [Option.getD_some] at hx
            simp only [RelayModernRecord.getLinkedRecordID,
              RelayModernRecord.setLinkedRecordID] at hx
            rw [assocGet_assocSet_self] at hx
            simpa using hx
          subst hn1n
          -- second run
          have hgetX : getRec ⟨st1.recordSource, hfp, ifp, mfp, pth, wns⟩ dataID =
              RelayModernRecord.setLinkedRecordID (getRec st dataID) key n1 := by
            simp [getRec, hget1]
          have hstored2 : RelayModernRecord.getLinkedRecordID
              (RelayModernRecord.setLinkedRecordID (getRec st dataID) key n1) key =
              some n1 := by
            simp [RelayModernRecord.getLinkedRecordID,
              RelayModernRecord.setLinkedRecordID, assocGet_assocSet_self]
          have hne : n1 ≠ "" :=
            resolveNextID_str_ne_empty _ _ _ _ hres
              (generateRelayClientID_ne_empty _ _)
          have hres2 : resolveNextID (fv.getField "id")
              (RelayModernRecord.getLinkedRecordID
                (RelayModernRecord.setLinkedRecordID (getRec st dataID) key n1) key)
              (generateRelayClientID
                (RelayModernRecord.getDataID
                  (RelayModernRecord.setLinkedRecordID (getRec st dataID) key n1))
                key) = .str n1 := by
            rw [hstored2]
            exact resolveNextID_stable _ _ _ _ hres hne
          have hsetr2 : RelayModernRecord.setLinkedRecordID
              (RelayModernRecord.setLinkedRecordID (getRec st dataID) key n1) key n1 =
              RelayModernRecord.setLinkedRecordID (getRec st dataID) key n1 := by
            simp [RelayModernRecord.setLinkedRecordID, assocSet_assocSet_same]
          have hlookX : assocGet st1.recordSource n1 = some r4 := by
            rw [hsrc1, assocGet_assocSet_self]
          rw [normalizeLink]
          simp only [hobj, Bool.not_true, Bool.false_eq_true, if_false]
          rw [hgetX, hres2]
          dsimp only
          have hupdX : updateRec ⟨st1.recordSource, hfp, ifp, mfp, pth, wns⟩
              dataID (fun r => RelayModernRecord.setLinkedRecordID r key n1) =
              ⟨st1.recordSource, hfp, ifp, mfp, pth, wns⟩ := by
            rw [updateRec]
            dsimp only
            rw [hgetX, hsetr2, assocSet_of_lookup_eq _ _ _ hget1]
          rw [hupdX]
          dsimp only
          rw [hlookX]
          dsimp only
          rw [if_neg (by simp [hdev])]
          rw [exceptOk_bind]
          rw [traverseScalars ctx hdev fv hobj n1 subsels hsc ct.isNone
            ⟨st1.recordSource, hfp, ifp, mfp, pth, wns⟩ r4 hlookX]
          have hwf : withFields ⟨st1.recordSource, hfp, ifp, mfp, pth, wns⟩ n1 r4
              (applyWrites r4.fields (scalarWrites ctx fv subsels)) =
              ⟨st1.recordSource, hfp, ifp, mfp, pth, wns⟩ := by
            rw [withFields, happly]
            dsimp only
            rw [assocSet_of_lookup_eq _ _ _ hlookX]
          rw [hwf]
      rcases hlook : assocGet (assocSet st.recordSource dataID
          (RelayModernRecord.setLinkedRecordID (getRec st dataID) key n1))
          n1 with _ | nr <;> rw [hlook] at h1 <;> dsimp only at h1
      · -- target created fresh
        have hn1d : n1 ≠ dataID := by
          intro he
          rw [he, assocGet_assocSet_self] at hlook
          exact Option.noConfusion hlook
        simp only [exceptBind_ok_iff, Except.ok.injEq] at h1
        obtain ⟨tname, htname, y, hy, htrav⟩ := h1
        subst hy
        have hpresS : assocGet (assocSet
            (assocSet st.recordSource dataID
              (RelayModernRecord.setLinkedRecordID (getRec st dataID) key n1))
            n1 (RelayModernRecord.create n1 tname)) n1 =
            some (RelayModernRecord.create n1 tname) := assocGet_assocSet_self _ _ _
        rw [traverseScalars ctx hdev fv hobj n1 subsels hsc ct.isNone _ _ hpresS]
          at htrav
        simp only [Except.ok.injEq] at htrav
        subst htrav
        apply downstream
        · rw [withFields]
          dsimp only
          rw [assocSet_assocSet_same]
        · dsimp only
          exact applyWrites_idem _ _
        · exact fun he => absurd he hn1d
      · -- target pre-existed; production build skips validation
        rw [if_neg (by simp [hdev]), exceptOk_bind] at h1
        rw [traverseScalars ctx hdev fv hobj n1 subsels hsc ct.isNone _ nr hlook]
          at h1
        simp only [Except.ok.injEq] at h1
        subst h1
        apply downstream
        · rw [withFields]
        · dsimp only
          exact applyWrites_idem _ _
        · intro he
          dsimp only
          have hnr : nr = RelayModernRecord.setLinkedRecordID (getRec st dataID) key n1 := by
            rw [he]
            rw [he, assocGet_assocSet_self] at hlook
            exact (Option.some.injEq _ _ ▸ hlook).symm
          rw [hnr]
    all_goals simp at h1
  · rw [normalizeLink] at h1
    simp [hobj] at h1

/-- First alias of the round-trip field: `f` as `a1`, scalar subtree `x`. -/
def c9Sel1 : Selection :=
  .linkedField "f" (some "a1") "f" false (some "T") [.scalarField "x" none "x"]

/-- Second alias of the round-trip field: `f` as `a2`, scalar subtree `y`. -/
def c9Sel2 : Selection :=
  .linkedField "f" (some "a2") "f" false (some "T") [.scalarField "y" none "y"]

/-- Two aliases of one field (same storage key `f`, response keys `a1`/`a2`)
with scalar subtrees `x` and `y`; only the second alias carries a server id. -/
def c9Selections : List Selection := [c9Sel1, c9Sel2]

/-- Selector over the root record for the aliased-field round trip. -/
def c9Selector : NormalizationSelector :=
  { dataID := "root", selections := c9Selections, vars := [] }

/-- Response giving the un-identified alias `x = 1` and the server-identified
alias `id = b`, `y = 2`. -/
def c9Response : JSValue :=
  .obj [("a1", .obj [("x", .num 1)]),
        ("a2", .obj [("id", .str "b"), ("y", .num 2)])]

/-- First normalization of the aliased-field round trip. -/
def c9Run1 : Except String NormalizerState :=
  RelayResponseNormalizer.normalize exSource c9Selector c9Response
    { handleStrippedNulls := false } false

/-- Second normalization of the same response against the store the first
call produced (a failed first call propagates its error). -/
def c9Run2 : Except String NormalizerState :=
  c9Run1 >>= fun st1 =>
    RelayResponseNormalizer.normalize st1.recordSource c9Selector c9Response
      { handleStrippedNulls := false } false

/-- Store after the first alias of the first call: the target got the
synthesized identity `root:f`. -/
def c9SrcA : RecordSource :=
  [("root", ⟨"root", .str "Query", [("f", .ref "root:f")]⟩),
   ("root:f", ⟨"root:f", .str "T", [("x", .scalar (.num 1))]⟩)]

/-- Store after the first call: the second alias re-targeted `f` at the
server-identified record `b`. -/
def c9SrcB : RecordSource :=
  [("root", ⟨"root", .str "Query", [("f", .ref "b")]⟩),
   ("root:f", ⟨"root:f", .str "T", [("x", .scalar (.num 1))]⟩),
   ("b", ⟨"b", .str "T", [("y", .scalar (.num 2))]⟩)]

/-- Store after the second call: the first alias reused the stored identity
`b` and wrote `x` onto it. -/
def c9SrcC : RecordSource :=
  [("root", ⟨"root", .str "Query", [("f", .ref "b")]⟩),
   ("root:f", ⟨"root:f", .str "T", [("x", .scalar (.num 1))]⟩),
   ("b", ⟨"b", .str "T", [("y", .scalar (.num 2)), ("x", .scalar (.num 1))]⟩)]

set_option maxRecDepth 4096 in
set_option maxHeartbeats 1000000 in
/-- Step 1 of the first run: normalizing alias `a1` against the bare root
store synthesizes the client id `root:f` and writes `x = 1` there. -/
theorem c9_step1 :
    normalizeSelection ⟨[], false, false⟩ false c9Sel1 "root" c9Response
      ⟨[("root", ⟨"root", .str "Query", []⟩)], [], [], [], [], []⟩ =
      .ok ⟨c9SrcA, [], [], [], [], []⟩ := by
  simp +decide [c9Sel1, c9Response, c9SrcA, normalizeSelection, normalizeField,
    normalizeLink, traverseSelections, strOr, JSValue.getField, List.lookup,
    JSValue.isObjectLike, JSValue.isNull, JSValue.truthy, resolveNextID,
    jsOrOpt, getRec, updateRec, assocGet, assocSet, generateRelayClientID,
    fieldTypeName, RelayModernRecord.setValue,
    RelayModernRecord.setLinkedRecordID, RelayModernRecord.create,
    RelayModernRecord.getLinkedRecordID, RelayModernRecord.getDataID,
    exceptOk_bind]

set_option maxRecDepth 4096 in
set_option maxHeartbeats 1000000 in
/-- Step 2 of the first run: alias `a2` carries the server id `b`, so the
link is re-targeted at `b` and `y = 2` is written there. -/
theorem c9_step2 :
    normalizeSelection ⟨[], false, false⟩ false c9Sel2 "root" c9Response
      ⟨c9SrcA, [], [], [], [], []⟩ = .ok ⟨c9SrcB, [], [], [], [], []⟩ := by
  simp +decide [c9Sel2, c9Response, c9SrcA, c9SrcB, normalizeSelection,
    normalizeField, normalizeLink, traverseSelections, strOr,
    JSValue.getField, List.lookup, JSValue.isObjectLike, JSValue.isNull,
    JSValue.truthy, resolveNextID, jsOrOpt, getRec, updateRec, assocGet,
    assocSet, generateRelayClientID, fieldTypeName,
    RelayModernRecord.setValue, RelayModernRecord.setLinkedRecordID,
    RelayModernRecord.create, RelayModernRecord.getLinkedRecordID,
    RelayModernRecord.getDataID, exceptOk_bind]

set_option maxRecDepth 4096 in
set_option maxHeartbeats 1000000 in
/-- The first run writes the store `c9SrcB`: the link points at `b`, `b`
holds only `y = 2`, and the abandoned client record `root:f` holds `x = 1`. -/
theorem c9_run1_eq : c9Run1 = .ok ⟨c9SrcB, [], [], [], [], []⟩ := by
  have hstart : c9Run1 = traverseSelections ⟨[], false, false⟩ false
      [c9Sel1, c9Sel2] "root" c9Response
      ⟨[("root", ⟨"root", .str "Query", []⟩)], [], [], [], [], []⟩ := by
    simp +decide [c9Run1, RelayResponseNormalizer.normalize, c9Selector,
      c9Selections, normalizeResponse, initState, exSource, exRoot, assocGet,
      RelayModernRecord.create]
  rw [hstart, traverseSelections, c9_step1, exceptOk_bind, traverseSelections,
    c9_step2, exceptOk_bind, traverseSelections]

set_option maxRecDepth 4096 in
set_option maxHeartbeats 1000000 in
/-- Step 1 of the second run: alias `a1` now finds the stored link to `b`,
reuses that identity (precedence source (b)) and writes `x = 1` onto `b`. -/
theorem c9_step3 :
    normalizeSelection ⟨[], false, false⟩ false c9Sel1 "root" c9Response
      ⟨c9SrcB, [], [], [], [], []⟩ = .ok ⟨c9SrcC, [], [], [], [], []⟩ := by
  simp +decide [c9Sel1, c9Response, c9SrcB, c9SrcC, normalizeSelection,
    normalizeField, normalizeLink, traverseSelections, strOr,
    JSValue.getField, List.lookup, JSValue.isObjectLike, JSValue.isNull,
    JSValue.truthy, resolveNextID, jsOrOpt, getRec, updateRec, assocGet,
    assocSet, generateRelayClientID, fieldTypeName,
    RelayModernRecord.setValue, RelayModernRecord.setLinkedRecordID,
    RelayModernRecord.create, RelayModernRecord.getLinkedRecordID,
    RelayModernRecord.getDataID, exceptOk_bind]

set_option maxRecDepth 4096 in
set_option maxHeartbeats 1000000 in
/-- Step 2 of the second run: alias `a2` rewrites the same values onto `b`,
leaving the store at `c9SrcC`. -/
theorem c9_step4 :
    normalizeSelection ⟨[], false, false⟩ false c9Sel2 "root" c9Response
      ⟨c9SrcC, [], [], [], [], []⟩ = .ok ⟨c9SrcC, [], [], [], [], []⟩ := by
  simp +decide [c9Sel2, c9Response, c9SrcC, normalizeSelection,
    normalizeField, normalizeLink, traverseSelections, strOr,
    JSValue.getField, List.lookup, JSValue.isObjectLike, JSValue.isNull,
    JSValue.truthy, resolveNextID, jsOrOpt, getRec, updateRec, assocGet,
    assocSet, generateRelayClientID, fieldTypeName,
    RelayModernRecord.setValue, RelayModernRecord.setLinkedRecordID,
    RelayModernRecord.create, RelayModernRecord.getLinkedRecordID,
    RelayModernRecord.getDataID, exceptOk_bind]

set_option maxRecDepth 4096 in
set_option maxHeartbeats 1000000 in
/-- Normalizing the response a second time against the store `c9SrcB` of the
first run yields the store `c9SrcC`: record `b` has gained the field `x = 1`. -/
theorem c9_norm2 : RelayResponseNormalizer.normalize c9SrcB c9Selector c9Response
    { handleStrippedNulls := false } false = .ok ⟨c9SrcC, [], [], [], [], []⟩ := by
  have hstart2 : RelayResponseNormalizer.normalize c9SrcB c9Selector c9Response
      { handleStrippedNulls := false } false = traverseSelections ⟨[], false, false⟩ false
      [c9Sel1, c9Sel2] "root" c9Response ⟨c9SrcB, [], [], [], [], []⟩ := rfl
  rw [hstart2, traverseSelections, c9_step3, exceptOk_bind, traverseSelections,
    c9_step4, exceptOk_bind, traverseSelections]

set_option maxRecDepth 4096 in
set_option maxHeartbeats 1000000 in
/-- The second run: the first call hands the store `c9SrcB` to the second,
which leaves the store at `c9SrcC`. -/
theorem c9_run2_eq : c9Run2 = .ok ⟨c9SrcC, [], [], [], [], []⟩ := by
  unfold c9Run2
  rw [c9_run1_eq, exceptOk_bind]
  exact c9_norm2

/-- C9 counterexample: both calls succeed, yet the server-identified record
`b` has no field `x` after the first call and gains `x = 1` in the second
(the first alias reuses the identity the second alias stored), so
re-normalizing the same response is not idempotent for server-identified
records. -/
theorem C9_round_trip_counterexample :
    Except.map (fun stx => assocGet (getRec stx "b").fields "x") c9Run1 =
      .ok none ∧
    Except.map (fun stx => assocGet (getRec stx "b").fields "x") c9Run2 =
      .ok (some (.scalar (.num 1))) := by
  constructor
  · rw [c9_run1_eq]
    simp [Except.map, getRec, assocGet, c9SrcB]
  · rw [c9_run2_eq]
    simp [Except.map, getRec, assocGet, c9SrcC]


/-- The store after first normalizing the witness link: root points at `c`,
and `c` holds `x = 1`. -/
def c9WitnessSource : RecordSource :=
  [("root", ⟨"root", .str "Query", [("f", .ref "c")]⟩),
   ("c", ⟨"c", .str "T", [("x", .scalar (.num 1))]⟩)]

/-- Witness for the amended C9 at a concrete input: re-normalizing the link
`f = {id: c, x: 1}` against the store its first normalization produced
leaves the store unchanged. -/
theorem C9_single_link_rescan_idempotent_witness :
    normalizeLink exCtx (some "T") [.scalarField "x" none "x"] "root" "f"
      (.obj [("id", .str "c"), ("x", .num 1)])
      ⟨c9WitnessSource, [], [], [], [], []⟩ =
      .ok ⟨c9WitnessSource, [], [], [], [], []⟩ := by
  have h1 : normalizeLink exCtx (some "T") [.scalarField "x" none "x"] "root" "f"
      (.obj [("id", .str "c"), ("x", .num 1)]) (initState exSource) =
      .ok ⟨c9WitnessSource, [], [], [], [], []⟩ := by
    simp +decide [normalizeLink, initState, exSource, exRoot, c9WitnessSource,
      traverseSelections, normalizeSelection, normalizeField, strOr,
      JSValue.getField, List.lookup, JSValue.isObjectLike, JSValue.isNull, JSValue.truthy,
      resolveNextID, jsOrOpt, getRec, updateRec, assocGet, assocSet,
      generateRelayClientID, fieldTypeName, RelayModernRecord.setValue,
      RelayModernRecord.setLinkedRecordID, RelayModernRecord.create,
      RelayModernRecord.getLinkedRecordID, RelayModernRecord.getDataID,
      exceptOk_bind, exCtx]
  exact C9_single_link_rescan_idempotent exCtx (some "T")
    [.scalarField "x" none "x"] "root" "c" "f"
    (.obj [("id", .str "c"), ("x", .num 1)]) (initState exSource)
    ⟨c9WitnessSource, [], [], [], [], []⟩ rfl
    (by intro sel hs; simp at hs; subst hs; rfl) h1 rfl (by decide)
    [] [] [] [] []
